import Mathlib

/-!
# Verification of the RGB keyboard effect and color engine

A shallow embedding, in Lean 4, of the core of the `cb-rgb-keyboard` program:

* `gui/core/rgb_color.py` — the `RGBColor` value type and its conversions,
* `gui/core/settings.py` — the validated settings store (`SettingsManager`),
* `gui/effects/manager.py` — the effect runtime (`EffectManager`).

Conventions of the embedding:

* Python `float` arithmetic is modelled exactly over `ℚ`.  Decimal literals
  such as `0.299` or `2.55` denote the exact rationals `299/1000`, `51/20`.
* Python `round` (round half to even, as applied by `int(round(x))`) is
  modelled by `pyRound`; Python `int(x)` truncation toward zero by `pyInt`.
* Fallible Python code (constructors and parsers that raise) returns
  `Option`, with `none` standing for a raised exception.
* Python strings are modelled as `List Char`; Python dictionaries as
  insertion-ordered association lists.
* Stateful, multi-threaded code (`EffectManager.start_effect` /
  `stop_effect` / `_effect_loop`) is modelled by an explicit small-step
  transition system over a state record, one step per Python statement that
  touches shared state; the render loop holds no lock in the source, so all
  interleavings of loop steps with a control call are possible behaviours.
-/

/-- Python `int(round(x))`: round half to even, as `float.__round__` does.
Exact halves pick the even neighbour; all other values go to the nearest
integer. -/
def pyRound (q : ℚ) : ℤ :=
  let n := ⌊q⌋
  let frac := q - n
  if frac < 1/2 then n
  else if 1/2 < frac then n + 1
  else if n % 2 = 0 then n else n + 1

/-- Python `int(x)` on a real value: truncation toward zero. -/
def pyInt (q : ℚ) : ℤ :=
  if q < 0 then -⌊-q⌋ else ⌊q⌋

/-- Python `max(list)` over a nonempty list of integers (the callers below
guard against the empty list, on which Python raises). -/
def pyListMax : List ℤ → ℤ
  | [] => 0
  | x :: xs => xs.foldl max x

/-- Python `min(list)` over a nonempty list of rationals. -/
def pyListMinQ : List ℚ → ℚ
  | [] => 0
  | x :: xs => xs.foldl min x

/-- Python `max(list)` over a nonempty list of rationals. -/
def pyListMaxQ : List ℚ → ℚ
  | [] => 0
  | x :: xs => xs.foldl max x

/-- `RGBColor` from `gui/core/rgb_color.py`: three channel intensities.
The class invariant (enforced by `__init__` via `_validate_component`,
modelled by `RGBColor.make`) keeps every channel in `[0, 255]`;
`RGBColor.Valid` states that invariant. -/
structure RGBColor where
  r : ℤ
  g : ℤ
  b : ℤ
deriving DecidableEq

/-- The class invariant of `RGBColor`: every channel lies in `[0, 255]`
(`MIN_VALUE = 0`, `MAX_VALUE = 255`). -/
def RGBColor.Valid (c : RGBColor) : Prop :=
  0 ≤ c.r ∧ c.r ≤ 255 ∧ 0 ≤ c.g ∧ c.g ≤ 255 ∧ 0 ≤ c.b ∧ c.b ≤ 255

instance (c : RGBColor) : Decidable c.Valid := by
  unfold RGBColor.Valid; infer_instance

/-- `RGBColor.__init__` / `_validate_component`: construction fails
(raises `ValueError`, here `none`) unless every channel is in `[0, 255]`. -/
def RGBColor.make (r g b : ℤ) : Option RGBColor :=
  if 0 ≤ r ∧ r ≤ 255 ∧ 0 ≤ g ∧ g ≤ 255 ∧ 0 ≤ b ∧ b ≤ 255 then
    some ⟨r, g, b⟩
  else
    none

/-- `RGBColor.to_osiris_brightness(method)`: perceived brightness for the
OSIRIS single-zone white backlight, an integer `0`–`100`.  The luminance is
computed by the chosen method, scaled by `1/2.55`, passed through Python
`round`, bumped to `1` for non-black colors that rounded to `0`, and
clamped into `[0, 100]`. -/
def RGBColor.to_osiris_brightness (c : RGBColor) (method : String) : ℤ :=
  let luminance : ℚ :=
    if method = "ntsc" then
      0.299 * c.r + 0.587 * c.g + 0.114 * c.b
    else if method = "itu" then
      0.2126 * c.r + 0.7152 * c.g + 0.0722 * c.b
    else if method = "average" then
      (c.r + c.g + c.b) / 3
    else if method = "max" then
      (max c.r (max c.g c.b) : ℤ)
    else
      0.299 * c.r + 0.587 * c.g + 0.114 * c.b
  let brightness := pyRound (luminance / 2.55)
  let brightness := if brightness = 0 ∧ (0 < c.r ∨ 0 < c.g ∨ 0 < c.b) then 1 else brightness
  max 0 (min 100 brightness)

/-- The hexadecimal digits used by Python `format(x, "02X")`. -/
def hexDigitCharU (n : ℕ) : Char :=
  ("0123456789ABCDEF".toList).getD n '0'

/-- Two-digit uppercase hexadecimal rendering of a channel value in
`[0, 255]`, as produced by the format specifier `02X`. -/
def hexPair (n : ℕ) : List Char :=
  [hexDigitCharU (n / 16), hexDigitCharU (n % 16)]

/-- `RGBColor.to_hex`: the string `#RRGGBB` with uppercase digits. -/
def RGBColor.to_hex (c : RGBColor) : List Char :=
  '#' :: (hexPair c.r.toNat ++ hexPair c.g.toNat ++ hexPair c.b.toNat)

/-- A character accepted by the class pattern `HEX_PATTERN`
(`[A-Fa-f0-9]`). -/
def isHexDigitPy (c : Char) : Bool :=
  (decide ('0' ≤ c) && decide (c ≤ '9')) ||
  (decide ('a' ≤ c) && decide (c ≤ 'f')) ||
  (decide ('A' ≤ c) && decide (c ≤ 'F'))

/-- The value of one hexadecimal digit, as read by Python `int(s, 16)`. -/
def hexVal (c : Char) : ℕ :=
  if decide ('0' ≤ c) && decide (c ≤ '9') then c.toNat - '0'.toNat
  else if decide ('a' ≤ c) && decide (c ≤ 'f') then c.toNat - 'a'.toNat + 10
  else if decide ('A' ≤ c) && decide (c ≤ 'F') then c.toNat - 'A'.toNat + 10
  else 0

/-- Python `str.strip()`: remove leading and trailing whitespace. -/
def pyStrip (s : List Char) : List Char :=
  ((s.dropWhile Char.isWhitespace).reverse.dropWhile Char.isWhitespace).reverse

/-- The class pattern `HEX_PATTERN`, the regular expression
`^#?([A-Fa-f0-9]{6}|[A-Fa-f0-9]{3})$`: an optional `#` followed by exactly
six or exactly three hexadecimal digits. -/
def matchesHexPattern (s : List Char) : Bool :=
  let body := match s with
    | '#' :: rest => rest
    | _ => s
  (body.length == 6 || body.length == 3) && body.all isHexDigitPy

/-- `RGBColor.from_hex`: strip whitespace, check `HEX_PATTERN`, remove the
leading `#` (`lstrip("#")`), double each digit of a three-digit form, and
parse the three channel pairs.  `none` models the raised `ValueError`. -/
def RGBColor.from_hex (hex_color : List Char) : Option RGBColor :=
  let s := pyStrip hex_color
  if matchesHexPattern s then
    let t := s.dropWhile (fun c => c == '#')
    let u := if t.length == 3 then t.flatMap (fun c => [c, c]) else t
    match u with
    | [d1, d2, d3, d4, d5, d6] =>
        RGBColor.make (hexVal d1 * 16 + hexVal d2)
          (hexVal d3 * 16 + hexVal d4)
          (hexVal d5 * 16 + hexVal d6)
    | _ => none
  else
    none

/-- One channel of `RGBColor.blend_with`: linear interpolation at the
clamped blend parameter, through Python `int(round(...))`. -/
def blendChan (x y : ℤ) (t : ℚ) : ℤ :=
  pyRound ((x : ℚ) * (1 - t) + (y : ℚ) * t)

/-- `RGBColor.blend_with(other, ratio)`: the blend parameter is clamped to
`[0, 1]`, each channel is interpolated linearly and rounded, and the result
passes through the validating constructor. -/
def RGBColor.blend_with (c other : RGBColor) (t : ℚ) : Option RGBColor :=
  let t2 := max 0 (min 1 t)
  RGBColor.make (blendChan c.r other.r t2) (blendChan c.g other.g t2)
    (blendChan c.b other.b t2)

/-- `RGBColor.interpolate(color1, color2, steps)`: raises (`none`) for
`steps < 2`, otherwise produces one blended color per index
`i ∈ [0, steps)`, at blend parameter `i / (steps - 1)`. -/
def RGBColor.interpolate (color1 color2 : RGBColor) (steps : ℤ) : Option (List RGBColor) :=
  if steps < 2 then none
  else
    (List.range steps.toNat).mapM
      (fun (i : ℕ) => color1.blend_with color2 ((i : ℚ) / ((steps : ℚ) - 1)))

/-- `RGBColor.from_brightness(brightness, color_temperature)`: white light
at the given brightness.  The brightness is clamped to `[0, 100]` and scaled
to `[0, 255]` by `int(round(brightness * 2.55))`; warm and cool whites scale
the secondary channels with `int(...)` truncation. -/
def RGBColor.from_brightness (brightness : ℤ) (color_temperature : String) : Option RGBColor :=
  let brightness := max 0 (min 100 brightness)
  let value := pyRound ((brightness : ℚ) * 2.55)
  if color_temperature = "warm" then
    RGBColor.make value (pyInt ((value : ℚ) * 0.9)) (pyInt ((value : ℚ) * 0.7))
  else if color_temperature = "cool" then
    RGBColor.make (pyInt ((value : ℚ) * 0.8)) (pyInt ((value : ℚ) * 0.9)) value
  else
    RGBColor.make value value value

/-- `get_optimal_osiris_brightness(rgb_colors, method)` from
`gui/core/rgb_color.py`: an empty list gives `0`; `"max"` takes the
brightest zone; `"average"` the plain mean; the default
`"weighted_average"` accumulates `brightness * weight` and `weight` per
zone with `weight = max(1, brightness)`, then truncates the quotient. -/
def get_optimal_osiris_brightness (rgb_colors : List RGBColor) (method : String) : ℤ :=
  if rgb_colors = [] then 0
  else if method = "max" then
    pyListMax (rgb_colors.map (fun color => color.to_osiris_brightness "ntsc"))
  else if method = "average" then
    pyInt (((rgb_colors.map (fun color => color.to_osiris_brightness "ntsc")).sum : ℚ)
      / (rgb_colors.length : ℚ))
  else
    let acc := rgb_colors.foldl
      (fun (acc : ℤ × ℤ) color =>
        let brightness := color.to_osiris_brightness "ntsc"
        let weight := max 1 brightness
        (acc.1 + brightness * weight, acc.2 + weight))
      (0, 0)
    if 0 < acc.2 then pyInt ((acc.1 : ℚ) / (acc.2 : ℚ)) else 0

/-- `EffectManager._optimize_for_osiris(colors)` from
`gui/effects/manager.py`: empty and single-color frames pass through;
otherwise the frame is folded to the weighted-average OSIRIS brightness,
re-expanded to a neutral white, and replicated over all `NUM_ZONES` zones.
`NUM_ZONES` comes from `gui/core/constants.py`, which is not among the
provided sources, so the zone count is a parameter here. -/
def EffectManager.optimize_for_osiris (numZones : ℕ) (colors : List RGBColor) :
    Option (List RGBColor) :=
  if colors = [] then some colors
  else if colors.length = 1 then some colors
  else
    let optimal_brightness := get_optimal_osiris_brightness colors "weighted_average"
    (RGBColor.from_brightness optimal_brightness "neutral").map
      (fun optimized_color => List.replicate numZones optimized_color)

/-! ## Basic facts about the rounding helpers -/

theorem pyRound_eq_floor_or_succ (q : ℚ) : pyRound q = ⌊q⌋ ∨ pyRound q = ⌊q⌋ + 1 := by
  unfold pyRound
  dsimp only
  split_ifs <;> simp

theorem pyRound_intCast (n : ℤ) : pyRound (n : ℚ) = n := by
  unfold pyRound
  norm_num

theorem le_pyRound_of_le {a : ℤ} {q : ℚ} (h : (a : ℚ) ≤ q) : a ≤ pyRound q := by
  have h1 : a ≤ ⌊q⌋ := Int.le_floor.mpr h
  rcases pyRound_eq_floor_or_succ q with h2 | h2 <;> omega

theorem pyRound_le_of_le {q : ℚ} {b : ℤ} (h : q ≤ (b : ℚ)) : pyRound q ≤ b := by
  have hfb : ⌊q⌋ ≤ b := by
    have := Int.floor_le_floor h
    simpa using this
  rcases eq_or_lt_of_le hfb with heq | hlt
  · have hqb : (b : ℚ) ≤ q := by
      conv_lhs => rw [← heq]
      exact Int.floor_le q
    have hq : q = (b : ℚ) := le_antisymm h hqb
    rw [hq, pyRound_intCast]
  · rcases pyRound_eq_floor_or_succ q with h2 | h2 <;> omega

/-! ## C2 — `toOsirisBrightness` -/

/-- The luminance of a color under one of the four supported methods,
scaled to the `0`–`100` range, written from the words of the spec. -/
def osirisScaledLuminance (c : RGBColor) (method : String) : ℚ :=
  let luminance : ℚ :=
    if method = "ntsc" then 0.299 * c.r + 0.587 * c.g + 0.114 * c.b
    else if method = "itu" then 0.2126 * c.r + 0.7152 * c.g + 0.0722 * c.b
    else if method = "average" then (c.r + c.g + c.b) / 3
    else (max c.r (max c.g c.b) : ℤ)
  luminance / 2.55

/-- Claim C2 as worded: the brightness is the floor of the scaled
luminance, except that a non-black color whose floor is `0` gives `1`. -/
def osirisBrightnessFloorClaim (c : RGBColor) (method : String) : ℤ :=
  let f := ⌊osirisScaledLuminance c method⌋
  if f = 0 ∧ c ≠ ⟨0, 0, 0⟩ then 1 else f

/-- Claim C2 amended: the brightness is the scaled luminance under Python
`round` (nearest, ties to even) rather than the floor, with the same
non-black exception. -/
def osirisBrightnessRounded (c : RGBColor) (method : String) : ℤ :=
  let v := pyRound (osirisScaledLuminance c method)
  if v = 0 ∧ c ≠ ⟨0, 0, 0⟩ then 1 else v

theorem scaledLuminance_bounds {c : RGBColor} (hc : c.Valid) (method : String) :
    0 ≤ osirisScaledLuminance c method ∧ osirisScaledLuminance c method ≤ 100 := by
  obtain ⟨hr0, hr1, hg0, hg1, hb0, hb1⟩ := hc
  have hr0q : (0 : ℚ) ≤ c.r := by exact_mod_cast hr0
  have hr1q : (c.r : ℚ) ≤ 255 := by exact_mod_cast hr1
  have hg0q : (0 : ℚ) ≤ c.g := by exact_mod_cast hg0
  have hg1q : (c.g : ℚ) ≤ 255 := by exact_mod_cast hg1
  have hb0q : (0 : ℚ) ≤ c.b := by exact_mod_cast hb0
  have hb1q : (c.b : ℚ) ≤ 255 := by exact_mod_cast hb1
  have hmax0 : (0 : ℚ) ≤ ((max c.r (max c.g c.b) : ℤ) : ℚ) := by
    have : (0 : ℤ) ≤ max c.r (max c.g c.b) := le_trans hr0 (le_max_left _ _)
    exact_mod_cast this
  have hmax1 : ((max c.r (max c.g c.b) : ℤ) : ℚ) ≤ 255 := by
    have : max c.r (max c.g c.b) ≤ (255 : ℤ) := by
      apply max_le hr1 (max_le hg1 hb1)
    exact_mod_cast this
  unfold osirisScaledLuminance
  dsimp only
  constructor
  · apply div_nonneg _ (by norm_num)
    split_ifs <;> [nlinarith; nlinarith; nlinarith; exact hmax0]
  · rw [div_le_iff₀ (by norm_num)]
    split_ifs <;> nlinarith

theorem osiris_clamp_core (cr cg cb PR : ℤ) (hr0 : 0 ≤ cr) (hg0 : 0 ≤ cg) (hb0 : 0 ≤ cb)
    (hPR0 : 0 ≤ PR) (hPR100 : PR ≤ 100)
    (hblack : cr = 0 ∧ cg = 0 ∧ cb = 0 → PR = 0) :
    max 0 (min 100 (if PR = 0 ∧ (0 < cr ∨ 0 < cg ∨ 0 < cb) then 1 else PR)) =
      (if PR = 0 ∧ ¬((⟨cr, cg, cb⟩ : RGBColor) = ⟨0, 0, 0⟩) then 1 else PR) ∧
    0 ≤ max 0 (min 100 (if PR = 0 ∧ (0 < cr ∨ 0 < cg ∨ 0 < cb) then 1 else PR)) ∧
    max 0 (min 100 (if PR = 0 ∧ (0 < cr ∨ 0 < cg ∨ 0 < cb) then 1 else PR)) ≤ 100 ∧
    ((⟨cr, cg, cb⟩ : RGBColor) = ⟨0, 0, 0⟩ →
      max 0 (min 100 (if PR = 0 ∧ (0 < cr ∨ 0 < cg ∨ 0 < cb) then 1 else PR)) = 0) ∧
    (¬((⟨cr, cg, cb⟩ : RGBColor) = ⟨0, 0, 0⟩) →
      1 ≤ max 0 (min 100 (if PR = 0 ∧ (0 < cr ∨ 0 < cg ∨ 0 < cb) then 1 else PR))) := by
  have hbeq : ((⟨cr, cg, cb⟩ : RGBColor) = (⟨0, 0, 0⟩ : RGBColor)) ↔
      (cr = 0 ∧ cg = 0 ∧ cb = 0) := by
    constructor
    · intro h
      injection h with h1 h2 h3
      exact ⟨h1, h2, h3⟩
    · rintro ⟨h1, h2, h3⟩
      rw [h1, h2, h3]
  simp only [hbeq]
  by_cases hch : cr = 0 ∧ cg = 0 ∧ cb = 0
  · have hPRz := hblack hch
    refine ⟨?_, ?_, ?_, ?_, ?_⟩ <;> split_ifs <;> omega
  · refine ⟨?_, ?_, ?_, ?_, ?_⟩ <;> split_ifs <;> omega

/-- The luminance selector exactly as written inside
`to_osiris_brightness`: five branches, the last `else` repeating the NTSC
formula for unrecognised method names. -/
def lumCode (c : RGBColor) (method : String) : ℚ :=
  if method = "ntsc" then
    0.299 * c.r + 0.587 * c.g + 0.114 * c.b
  else if method = "itu" then
    0.2126 * c.r + 0.7152 * c.g + 0.0722 * c.b
  else if method = "average" then
    (c.r + c.g + c.b) / 3
  else if method = "max" then
    (max c.r (max c.g c.b) : ℤ)
  else
    0.299 * c.r + 0.587 * c.g + 0.114 * c.b

/-- The luminance selector exactly as written inside
`osirisScaledLuminance`: four branches. -/
def lumSpec (c : RGBColor) (method : String) : ℚ :=
  if method = "ntsc" then 0.299 * c.r + 0.587 * c.g + 0.114 * c.b
  else if method = "itu" then 0.2126 * c.r + 0.7152 * c.g + 0.0722 * c.b
  else if method = "average" then (c.r + c.g + c.b) / 3
  else (max c.r (max c.g c.b) : ℤ)

theorem tob_eq_code (c : RGBColor) (method : String) :
    c.to_osiris_brightness method =
      max 0 (min 100
        (if pyRound (lumCode c method / 2.55) = 0 ∧ (0 < c.r ∨ 0 < c.g ∨ 0 < c.b)
          then 1 else pyRound (lumCode c method / 2.55))) := rfl

theorem oSL_eq_spec (c : RGBColor) (method : String) :
    osirisScaledLuminance c method = lumSpec c method / 2.55 := rfl

theorem lum_eq_ntsc (c : RGBColor) : lumCode c "ntsc" = lumSpec c "ntsc" := by
  unfold lumCode lumSpec
  rw [if_pos rfl, if_pos rfl]

theorem lum_eq_itu (c : RGBColor) : lumCode c "itu" = lumSpec c "itu" := by
  unfold lumCode lumSpec
  rw [if_neg (show ¬(("itu" : String) = "ntsc") from by decide),
    if_neg (show ¬(("itu" : String) = "ntsc") from by decide),
    if_pos rfl, if_pos rfl]

theorem lum_eq_average (c : RGBColor) : lumCode c "average" = lumSpec c "average" := by
  unfold lumCode lumSpec
  rw [if_neg (show ¬(("average" : String) = "ntsc") from by decide),
    if_neg (show ¬(("average" : String) = "ntsc") from by decide),
    if_neg (show ¬(("average" : String) = "itu") from by decide),
    if_neg (show ¬(("average" : String) = "itu") from by decide),
    if_pos rfl, if_pos rfl]

theorem lum_eq_max_method (c : RGBColor) : lumCode c "max" = lumSpec c "max" := by
  unfold lumCode lumSpec
  rw [if_neg (show ¬(("max" : String) = "ntsc") from by decide),
    if_neg (show ¬(("max" : String) = "ntsc") from by decide),
    if_neg (show ¬(("max" : String) = "itu") from by decide),
    if_neg (show ¬(("max" : String) = "itu") from by decide),
    if_neg (show ¬(("max" : String) = "average") from by decide),
    if_neg (show ¬(("max" : String) = "average") from by decide),
    if_pos rfl]

theorem tob_eq_rounded (c : RGBColor) (method : String)
    (hm : method = "ntsc" ∨ method = "itu" ∨ method = "average" ∨ method = "max") :
    c.to_osiris_brightness method =
      max 0 (min 100
        (if pyRound (osirisScaledLuminance c method) = 0 ∧ (0 < c.r ∨ 0 < c.g ∨ 0 < c.b)
          then 1 else pyRound (osirisScaledLuminance c method))) := by
  rw [tob_eq_code, oSL_eq_spec]
  rcases hm with hm | hm | hm | hm <;> subst hm
  · rw [lum_eq_ntsc]
  · rw [lum_eq_itu]
  · rw [lum_eq_average]
  · rw [lum_eq_max_method]

theorem pyRound_oSL_black (method : String)
    (hm : method = "ntsc" ∨ method = "itu" ∨ method = "average" ∨ method = "max") :
    pyRound (osirisScaledLuminance ⟨0, 0, 0⟩ method) = 0 := by
  rcases hm with hm | hm | hm | hm <;> subst hm <;>
    norm_num [osirisScaledLuminance, pyRound]

/-- C2 (amended): for every valid color and each of the four luminance
methods, `to_osiris_brightness` returns an integer in `[0, 100]` equal to
the scaled luminance under Python `round` — nearest integer, ties to even,
not the floor — except that a non-black color whose rounded value is `0`
returns `1`; black returns `0`. -/
theorem to_osiris_brightness_spec (c : RGBColor) (method : String) (hc : c.Valid)
    (hm : method = "ntsc" ∨ method = "itu" ∨ method = "average" ∨ method = "max") :
    c.to_osiris_brightness method = osirisBrightnessRounded c method ∧
    0 ≤ c.to_osiris_brightness method ∧ c.to_osiris_brightness method ≤ 100 ∧
    (c = ⟨0, 0, 0⟩ → c.to_osiris_brightness method = 0) ∧
    (c ≠ ⟨0, 0, 0⟩ → 1 ≤ c.to_osiris_brightness method) := by
  have hbnd := scaledLuminance_bounds hc method
  have hPR0 : 0 ≤ pyRound (osirisScaledLuminance c method) :=
    le_pyRound_of_le (by exact_mod_cast hbnd.1)
  have hPR100 : pyRound (osirisScaledLuminance c method) ≤ 100 :=
    pyRound_le_of_le (by exact_mod_cast hbnd.2)
  have heq := tob_eq_rounded c method hm
  have hbr : osirisBrightnessRounded c method =
      (if pyRound (osirisScaledLuminance c method) = 0 ∧ c ≠ ⟨0, 0, 0⟩ then 1
        else pyRound (osirisScaledLuminance c method)) := rfl
  obtain ⟨hr0, hr1, hg0, hg1, hb0, hb1⟩ := hc
  obtain ⟨cr, cg, cb⟩ := c
  rw [heq, hbr]
  exact osiris_clamp_core cr cg cb (pyRound (osirisScaledLuminance ⟨cr, cg, cb⟩ method))
    hr0 hg0 hb0 hPR0 hPR100
    (by rintro ⟨h1, h2, h3⟩; subst h1; subst h2; subst h3; exact pyRound_oSL_black method hm)

/-- C2 counterexample: at `(13, 0, 0)` with the default NTSC method the
scaled luminance is `3887/2550 ≈ 1.52`; the code (Python `round`) returns
`2`, while the claim's floor gives `1`. -/
theorem to_osiris_floor_counterexample :
    RGBColor.to_osiris_brightness ⟨13, 0, 0⟩ "ntsc" = 2 ∧
    osirisBrightnessFloorClaim ⟨13, 0, 0⟩ "ntsc" = 1 := by
  constructor <;>
    norm_num [RGBColor.to_osiris_brightness, osirisBrightnessFloorClaim,
      osirisScaledLuminance, pyRound]

/-- Witness for `to_osiris_brightness_spec` at the color `(10, 20, 30)`
and the NTSC method. -/
theorem to_osiris_brightness_spec_witness :
    RGBColor.Valid ⟨10, 20, 30⟩ ∧
    (RGBColor.to_osiris_brightness ⟨10, 20, 30⟩ "ntsc" =
        osirisBrightnessRounded ⟨10, 20, 30⟩ "ntsc" ∧
      0 ≤ RGBColor.to_osiris_brightness ⟨10, 20, 30⟩ "ntsc" ∧
      RGBColor.to_osiris_brightness ⟨10, 20, 30⟩ "ntsc" ≤ 100 ∧
      ((⟨10, 20, 30⟩ : RGBColor) = ⟨0, 0, 0⟩ →
        RGBColor.to_osiris_brightness ⟨10, 20, 30⟩ "ntsc" = 0) ∧
      ((⟨10, 20, 30⟩ : RGBColor) ≠ ⟨0, 0, 0⟩ →
        1 ≤ RGBColor.to_osiris_brightness ⟨10, 20, 30⟩ "ntsc")) :=
  ⟨by decide, to_osiris_brightness_spec ⟨10, 20, 30⟩ "ntsc" (by decide) (Or.inl rfl)⟩

/-! ## C7 — hex round trip -/

theorem hexDigit_facts (d : ℕ) (hd : d < 16) :
    isHexDigitPy (hexDigitCharU d) = true ∧
    hexVal (hexDigitCharU d) = d ∧
    ((hexDigitCharU d) == '#') = false ∧
    (hexDigitCharU d).isWhitespace = false := by
  interval_cases d <;> decide

theorem dropWhile_eq_self_of_all {p : Char → Bool} :
    ∀ {s : List Char}, (∀ ch ∈ s, p ch = false) → s.dropWhile p = s
  | [], _ => rfl
  | c :: cs, h => by
      have hc := h c (by simp)
      simp [List.dropWhile_cons, hc]

theorem pyStrip_eq_self {s : List Char}
    (h : ∀ ch ∈ s, ch.isWhitespace = false) : pyStrip s = s := by
  unfold pyStrip
  rw [dropWhile_eq_self_of_all h,
    dropWhile_eq_self_of_all (fun ch hch => h ch (List.mem_reverse.mp hch)),
    List.reverse_reverse]

/-- C7: for every color with channels in `[0, 255]`, parsing the hex
string the color prints round-trips: `from_hex (to_hex c) = c`. -/
theorem from_hex_to_hex (c : RGBColor) (hc : c.Valid) :
    RGBColor.from_hex (RGBColor.to_hex c) = some c := by
  obtain ⟨hr0, hr1, hg0, hg1, hb0, hb1⟩ := hc
  have h1 : c.r.toNat / 16 < 16 := by omega
  have h2 : c.r.toNat % 16 < 16 := Nat.mod_lt _ (by norm_num)
  have h3 : c.g.toNat / 16 < 16 := by omega
  have h4 : c.g.toNat % 16 < 16 := Nat.mod_lt _ (by norm_num)
  have h5 : c.b.toNat / 16 < 16 := by omega
  have h6 : c.b.toNat % 16 < 16 := Nat.mod_lt _ (by norm_num)
  obtain ⟨f1a, f1b, f1c, f1d⟩ := hexDigit_facts _ h1
  obtain ⟨f2a, f2b, f2c, f2d⟩ := hexDigit_facts _ h2
  obtain ⟨f3a, f3b, f3c, f3d⟩ := hexDigit_facts _ h3
  obtain ⟨f4a, f4b, f4c, f4d⟩ := hexDigit_facts _ h4
  obtain ⟨f5a, f5b, f5c, f5d⟩ := hexDigit_facts _ h5
  obtain ⟨f6a, f6b, f6c, f6d⟩ := hexDigit_facts _ h6
  have hstrip : pyStrip (RGBColor.to_hex c) = RGBColor.to_hex c := by
    apply pyStrip_eq_self
    intro ch hch
    simp [RGBColor.to_hex, hexPair] at hch
    rcases hch with h | h | h | h | h | h | h <;> subst h <;>
      first | decide | assumption
  simp only [RGBColor.from_hex, hstrip]
  simp only [RGBColor.to_hex, hexPair, List.cons_append, List.nil_append]
  rw [if_pos]
  · have hdw : List.dropWhile (fun ch => ch == '#')
        ('#' :: hexDigitCharU (c.r.toNat / 16) :: hexDigitCharU (c.r.toNat % 16) ::
         hexDigitCharU (c.g.toNat / 16) :: hexDigitCharU (c.g.toNat % 16) ::
         hexDigitCharU (c.b.toNat / 16) :: hexDigitCharU (c.b.toNat % 16) :: []) =
        hexDigitCharU (c.r.toNat / 16) :: hexDigitCharU (c.r.toNat % 16) ::
         hexDigitCharU (c.g.toNat / 16) :: hexDigitCharU (c.g.toNat % 16) ::
         hexDigitCharU (c.b.toNat / 16) :: hexDigitCharU (c.b.toNat % 16) :: [] := by
      rw [List.dropWhile_cons_of_pos (by simp), List.dropWhile_cons_of_neg (by simp [f1c])]
    rw [hdw]
    have hA : ((hexVal (hexDigitCharU (c.r.toNat / 16)) : ℤ) * 16 +
        (hexVal (hexDigitCharU (c.r.toNat % 16)) : ℤ)) = c.r := by
      rw [f1b, f2b]; omega
    have hB : ((hexVal (hexDigitCharU (c.g.toNat / 16)) : ℤ) * 16 +
        (hexVal (hexDigitCharU (c.g.toNat % 16)) : ℤ)) = c.g := by
      rw [f3b, f4b]; omega
    have hC : ((hexVal (hexDigitCharU (c.b.toNat / 16)) : ℤ) * 16 +
        (hexVal (hexDigitCharU (c.b.toNat % 16)) : ℤ)) = c.b := by
      rw [f5b, f6b]; omega
    simp only [List.length_cons, List.length_nil]
    norm_num
    rw [hA, hB, hC]
    rw [RGBColor.make, if_pos ⟨hr0, hr1, hg0, hg1, hb0, hb1⟩]
  · simp [matchesHexPattern, f1a, f2a, f3a, f4a, f5a, f6a]


/-- Witness for `from_hex_to_hex` at the color `(255, 128, 7)`. -/
theorem from_hex_to_hex_witness :
    RGBColor.Valid ⟨255, 128, 7⟩ ∧
    RGBColor.from_hex (RGBColor.to_hex ⟨255, 128, 7⟩) = some ⟨255, 128, 7⟩ :=
  ⟨by decide, from_hex_to_hex ⟨255, 128, 7⟩ (by decide)⟩

/-! ## C6 — `interpolate` -/

/-- The value `blend_with` computes when the validating constructor
succeeds (which `blend_with_eq` shows is always, for valid inputs). -/
def blendPure (c other : RGBColor) (t : ℚ) : RGBColor :=
  let t2 := max 0 (min 1 t)
  ⟨blendChan c.r other.r t2, blendChan c.g other.g t2, blendChan c.b other.b t2⟩

theorem blendChan_bounds {x y : ℤ} (hx0 : 0 ≤ x) (hx1 : x ≤ 255) (hy0 : 0 ≤ y)
    (hy1 : y ≤ 255) {t : ℚ} (ht0 : 0 ≤ t) (ht1 : t ≤ 1) :
    0 ≤ blendChan x y t ∧ blendChan x y t ≤ 255 := by
  have hx0q : (0 : ℚ) ≤ x := by exact_mod_cast hx0
  have hx1q : (x : ℚ) ≤ 255 := by exact_mod_cast hx1
  have hy0q : (0 : ℚ) ≤ y := by exact_mod_cast hy0
  have hy1q : (y : ℚ) ≤ 255 := by exact_mod_cast hy1
  constructor
  · exact le_pyRound_of_le (by push_cast; nlinarith)
  · exact pyRound_le_of_le (by push_cast; nlinarith)

theorem clamp01_bounds (t : ℚ) : 0 ≤ max 0 (min 1 t) ∧ max 0 (min 1 t) ≤ 1 := by
  constructor
  · exact le_max_left 0 _
  · apply max_le (by norm_num) (min_le_left 1 t)

theorem blend_with_eq (c other : RGBColor) (hc : c.Valid) (ho : other.Valid) (t : ℚ) :
    c.blend_with other t = some (blendPure c other t) := by
  obtain ⟨hr0, hr1, hg0, hg1, hb0, hb1⟩ := hc
  obtain ⟨kr0, kr1, kg0, kg1, kb0, kb1⟩ := ho
  obtain ⟨ht0, ht1⟩ := clamp01_bounds t
  obtain ⟨e1, e2⟩ := blendChan_bounds hr0 hr1 kr0 kr1 ht0 ht1
  obtain ⟨e3, e4⟩ := blendChan_bounds hg0 hg1 kg0 kg1 ht0 ht1
  obtain ⟨e5, e6⟩ := blendChan_bounds hb0 hb1 kb0 kb1 ht0 ht1
  simp only [RGBColor.blend_with, blendPure]
  rw [RGBColor.make, if_pos ⟨e1, e2, e3, e4, e5, e6⟩]

theorem blendPure_valid (c other : RGBColor) (hc : c.Valid) (ho : other.Valid) (t : ℚ) :
    (blendPure c other t).Valid := by
  obtain ⟨hr0, hr1, hg0, hg1, hb0, hb1⟩ := hc
  obtain ⟨kr0, kr1, kg0, kg1, kb0, kb1⟩ := ho
  obtain ⟨ht0, ht1⟩ := clamp01_bounds t
  obtain ⟨e1, e2⟩ := blendChan_bounds hr0 hr1 kr0 kr1 ht0 ht1
  obtain ⟨e3, e4⟩ := blendChan_bounds hg0 hg1 kg0 kg1 ht0 ht1
  obtain ⟨e5, e6⟩ := blendChan_bounds hb0 hb1 kb0 kb1 ht0 ht1
  exact ⟨e1, e2, e3, e4, e5, e6⟩

theorem blendPure_zero (c other : RGBColor) : blendPure c other 0 = c := by
  have hcl : max 0 (min 1 (0 : ℚ)) = 0 := by norm_num
  obtain ⟨cr, cg, cb⟩ := c
  simp only [blendPure, blendChan, hcl]
  norm_num [pyRound_intCast]

theorem blendPure_one (c other : RGBColor) : blendPure c other 1 = other := by
  have hcl : max 0 (min 1 (1 : ℚ)) = 1 := by norm_num
  obtain ⟨kr, kg, kb⟩ := other
  simp only [blendPure, blendChan, hcl]
  norm_num [pyRound_intCast]

theorem mapM_option_loop_eq {α β : Type} (f : α → Option β) (g : α → β) :
    ∀ (l : List α) (acc : List β), (∀ a ∈ l, f a = some (g a)) →
      List.mapM.loop f l acc = some (acc.reverse ++ l.map g)
  | [], acc, _ => by simp [List.mapM.loop]
  | a :: l, acc, h => by
      have ha := h a (by simp)
      have hl := mapM_option_loop_eq f g l (g a :: acc) (fun x hx => h x (by simp [hx]))
      simp [List.mapM.loop, ha, hl]

theorem mapM_option_eq_map {α β : Type} (f : α → Option β) (g : α → β)
    (l : List α) (h : ∀ a ∈ l, f a = some (g a)) : l.mapM f = some (l.map g) := by
  have := mapM_option_loop_eq f g l [] h
  simpa [List.mapM] using this

/-- C6: `interpolate(c1, c2, steps)` fails (raises) for `steps < 2`, and
otherwise returns exactly `steps` colors, the first equal to `c1`, the
last equal to `c2`, the `i`-th being the blend of `c1` and `c2` at the
evenly spaced blend parameter `i / (steps - 1)`. -/
theorem interpolate_spec (color1 color2 : RGBColor) (steps : ℤ)
    (h1 : color1.Valid) (h2 : color2.Valid) :
    (steps < 2 → RGBColor.interpolate color1 color2 steps = none) ∧
    (2 ≤ steps → ∃ l, RGBColor.interpolate color1 color2 steps = some l ∧
      (l.length : ℤ) = steps ∧
      l.head? = some color1 ∧
      l.getLast? = some color2 ∧
      ∀ (i : ℕ) (hi : i < l.length),
        l.get ⟨i, hi⟩ = blendPure color1 color2 ((i : ℚ) / ((steps : ℚ) - 1))) := by
  constructor
  · intro hlt
    simp [RGBColor.interpolate, hlt]
  · intro hge
    have hnotlt : ¬ steps < 2 := by omega
    have hmap := mapM_option_eq_map
      (fun i : ℕ => color1.blend_with color2 ((i : ℚ) / ((steps : ℚ) - 1)))
      (fun i : ℕ => blendPure color1 color2 ((i : ℚ) / ((steps : ℚ) - 1)))
      (List.range steps.toNat)
      (fun i _ => blend_with_eq color1 color2 h1 h2 _)
    have hlen : ((List.range steps.toNat).map
        (fun i : ℕ => blendPure color1 color2 ((i : ℚ) / ((steps : ℚ) - 1)))).length
        = steps.toNat := by
      simp
    refine ⟨(List.range steps.toNat).map
        (fun i : ℕ => blendPure color1 color2 ((i : ℚ) / ((steps : ℚ) - 1))),
      ?_, ?_, ?_, ?_, ?_⟩
    · simp only [RGBColor.interpolate, if_neg hnotlt]
      exact hmap
    · rw [hlen]; omega
    · rw [List.head?_eq_getElem?]
      have h0 : (0:ℕ) < steps.toNat := by omega
      simp only [List.getElem?_map, List.getElem?_range, h0, if_pos]
      simp [blendPure_zero]
    · rw [List.getLast?_eq_getElem?, hlen]
      have hlt : steps.toNat - 1 < steps.toNat := by omega
      simp only [List.getElem?_map, List.getElem?_range, hlt, if_pos]
      have hc : ((steps.toNat - 1 : ℕ) : ℚ) / ((steps : ℚ) - 1) = 1 := by
        have hq : ((steps.toNat - 1 : ℕ) : ℚ) = (steps : ℚ) - 1 := by
          have h1' : (1:ℕ) ≤ steps.toNat := by omega
          push_cast [Nat.cast_sub h1']
          have : ((steps.toNat : ℤ) : ℚ) = (steps : ℚ) := by
            rw [Int.toNat_of_nonneg (by omega)]
          push_cast at this
          rw [this]
        rw [hq]
        apply div_self
        have : (2:ℚ) ≤ (steps : ℚ) := by exact_mod_cast hge
        linarith
      simp [hc, blendPure_one]
    · intro i hi
      rw [hlen] at hi
      simp [List.get_eq_getElem, List.getElem_map, List.getElem_range]

/-- Witness for `interpolate_spec`: black to white in three steps. -/
theorem interpolate_spec_witness :
    RGBColor.Valid ⟨0, 0, 0⟩ ∧ RGBColor.Valid ⟨255, 255, 255⟩ ∧
    (((3 : ℤ) < 2 → RGBColor.interpolate ⟨0, 0, 0⟩ ⟨255, 255, 255⟩ 3 = none) ∧
     (2 ≤ (3 : ℤ) → ∃ l, RGBColor.interpolate ⟨0, 0, 0⟩ ⟨255, 255, 255⟩ 3 = some l ∧
        (l.length : ℤ) = 3 ∧ l.head? = some ⟨0, 0, 0⟩ ∧
        l.getLast? = some ⟨255, 255, 255⟩ ∧
        ∀ (i : ℕ) (hi : i < l.length),
          l.get ⟨i, hi⟩ =
            blendPure ⟨0, 0, 0⟩ ⟨255, 255, 255⟩ ((i : ℚ) / (((3 : ℤ) : ℚ) - 1)))) :=
  ⟨by decide, by decide, interpolate_spec ⟨0, 0, 0⟩ ⟨255, 255, 255⟩ 3 (by decide) (by decide)⟩

/-! ## C3 — single-zone folding -/

theorem weighted_foldl_acc (colors : List RGBColor) : ∀ (a s : ℤ),
    colors.foldl (fun (acc : ℤ × ℤ) color =>
      let brightness := color.to_osiris_brightness "ntsc"
      let weight := max 1 brightness
      (acc.1 + brightness * weight, acc.2 + weight)) (a, s) =
    (a + (colors.map (fun c =>
        c.to_osiris_brightness "ntsc" * max 1 (c.to_osiris_brightness "ntsc"))).sum,
     s + (colors.map (fun c => max 1 (c.to_osiris_brightness "ntsc"))).sum) := by
  induction colors with
  | nil => intro a s; simp
  | cons c cs ih =>
      intro a s
      simp only [List.foldl_cons, List.map_cons, List.sum_cons]
      rw [ih]
      simp only [Prod.mk.injEq]
      exact ⟨by ring, by ring⟩

theorem weights_sum_pos (colors : List RGBColor) (h : colors ≠ []) :
    0 < (colors.map (fun c => max 1 (c.to_osiris_brightness "ntsc"))).sum := by
  match colors with
  | [] => exact absurd rfl h
  | c :: cs =>
      simp only [List.map_cons, List.sum_cons]
      have h1 : (1 : ℤ) ≤ max 1 (c.to_osiris_brightness "ntsc") := le_max_left _ _
      have h2 : 0 ≤ (cs.map (fun c => max 1 (c.to_osiris_brightness "ntsc"))).sum := by
        apply List.sum_nonneg
        intro x hx
        simp only [List.mem_map] at hx
        obtain ⟨y, _, hy⟩ := hx
        omega
      omega

/-- Claim C3 amended, written from its words: the multi-zone frame is
reduced to the truncated weighted-average OSIRIS brightness with the weight
of each zone being `max(1, that zone's own brightness)`, re-expanded to a
neutral white, and replicated over all zones. -/
def foldToSingleZoneAmended (numZones : ℕ) (colors : List RGBColor) : Option (List RGBColor) :=
  let bs := colors.map (fun c => c.to_osiris_brightness "ntsc")
  let num : ℤ := (bs.map (fun b => b * max 1 b)).sum
  let den : ℤ := (bs.map (fun b => max 1 b)).sum
  let avg := pyInt ((num : ℚ) / (den : ℚ))
  (RGBColor.from_brightness avg "neutral").map (fun w => List.replicate numZones w)

/-- The fold brightness exactly as claim C3 words it: each zone weighted by
its own OSIRIS brightness (`weight = brightness`, with the division guarded
against an all-black frame). -/
def claimFoldBrightness (colors : List RGBColor) : ℤ :=
  let bs := colors.map (fun c => c.to_osiris_brightness "ntsc")
  let num : ℤ := (bs.map (fun b => b * b)).sum
  if 0 < bs.sum then pyInt ((num : ℚ) / (bs.sum : ℚ)) else 0

/-- C3 (amended): on any multi-zone frame the fold equals the
weighted-average formulation with weights `max(1, brightness)`. -/
theorem optimize_for_osiris_spec (numZones : ℕ) (colors : List RGBColor)
    (h2 : 2 ≤ colors.length) :
    EffectManager.optimize_for_osiris numZones colors =
      foldToSingleZoneAmended numZones colors := by
  have hne : colors ≠ [] := by
    intro h
    rw [h] at h2
    simp at h2
  have hl1 : ¬ colors.length = 1 := by omega
  have hpos := weights_sum_pos colors hne
  simp only [EffectManager.optimize_for_osiris, if_neg hne, if_neg hl1,
    get_optimal_osiris_brightness, String.reduceEq, reduceIte, ite_false]
  rw [weighted_foldl_acc]
  rw [if_pos (by simpa using hpos)]
  simp only [foldToSingleZoneAmended, List.map_map, Function.comp_def, zero_add]

/-- C3 counterexample: on the frame `[black, white]` the code weights the
black zone `max(1, 0) = 1`, giving `int(10000/101) = 99`, while the claim's
weights (`0` and `100`) give `int(10000/100) = 100`; the folded frame is
`(252, 252, 252)` uniformly, not the `(255, 255, 255)` of brightness 100. -/
theorem optimize_weight_counterexample :
    get_optimal_osiris_brightness [⟨0, 0, 0⟩, ⟨255, 255, 255⟩] "weighted_average" = 99 ∧
    claimFoldBrightness [⟨0, 0, 0⟩, ⟨255, 255, 255⟩] = 100 ∧
    EffectManager.optimize_for_osiris 2 [⟨0, 0, 0⟩, ⟨255, 255, 255⟩] =
      some [⟨252, 252, 252⟩, ⟨252, 252, 252⟩] ∧
    RGBColor.from_brightness 100 "neutral" = some ⟨255, 255, 255⟩ := by
  have hb0 : RGBColor.to_osiris_brightness ⟨0, 0, 0⟩ "ntsc" = 0 := by
    norm_num [RGBColor.to_osiris_brightness, pyRound]
  have hb255 : RGBColor.to_osiris_brightness ⟨255, 255, 255⟩ "ntsc" = 100 := by
    norm_num [RGBColor.to_osiris_brightness, pyRound]
  have h99 : RGBColor.from_brightness 99 "neutral" = some ⟨252, 252, 252⟩ := by
    simp only [RGBColor.from_brightness, String.reduceEq, reduceIte]
    norm_num [pyRound, RGBColor.make]
  have h100 : RGBColor.from_brightness 100 "neutral" = some ⟨255, 255, 255⟩ := by
    simp only [RGBColor.from_brightness, String.reduceEq, reduceIte]
    norm_num [pyRound, RGBColor.make]
  have hopt : get_optimal_osiris_brightness [⟨0, 0, 0⟩, ⟨255, 255, 255⟩]
      "weighted_average" = 99 := by
    simp only [get_optimal_osiris_brightness]
    rw [if_neg (show ¬([(⟨0, 0, 0⟩ : RGBColor), ⟨255, 255, 255⟩] = []) from by decide)]
    simp only [String.reduceEq, reduceIte]
    norm_num [hb0, hb255, pyInt]
  refine ⟨hopt, ?_, ?_, h100⟩
  · simp only [claimFoldBrightness]
    norm_num [hb0, hb255, pyInt]
  · simp only [EffectManager.optimize_for_osiris]
    rw [if_neg (show ¬([(⟨0, 0, 0⟩ : RGBColor), ⟨255, 255, 255⟩] = []) from by decide)]
    norm_num [hopt, h99, List.replicate]

/-- Witness for `optimize_for_osiris_spec` on the two-zone frame
`[black, white]`. -/
theorem optimize_for_osiris_spec_witness :
    2 ≤ ([(⟨0, 0, 0⟩ : RGBColor), ⟨255, 255, 255⟩] : List RGBColor).length ∧
    EffectManager.optimize_for_osiris 4 [⟨0, 0, 0⟩, ⟨255, 255, 255⟩] =
      foldToSingleZoneAmended 4 [⟨0, 0, 0⟩, ⟨255, 255, 255⟩] :=
  ⟨by decide, optimize_for_osiris_spec 4 [⟨0, 0, 0⟩, ⟨255, 255, 255⟩] (by decide)⟩

/-! ## C9 — performance statistics -/

/-- `EffectManager._track_performance`: append the new frame duration and
drop the oldest sample once the buffer exceeds
`_max_frame_time_samples = 100`. -/
def track_performance (frame_times : List ℚ) (frame_time : ℚ) : List ℚ :=
  let ft := frame_times ++ [frame_time]
  if 100 < ft.length then ft.drop 1 else ft

/-- Outcome of `EffectManager.get_performance_stats`: the empty dict for an
empty buffer, a raised `ZeroDivisionError` when the average frame time is
zero (the `estimated_fps` entry divides by it without a guard), or the
stats dict. -/
inductive PerfStatsResult where
  | emptyMap
  | divisionByZero
  | stats (avg_frame_time max_frame_time min_frame_time : ℚ)
      (frame_count : ℕ) (estimated_fps : ℚ)
deriving DecidableEq

/-- `EffectManager.get_performance_stats`. -/
def get_performance_stats (frame_times : List ℚ) : PerfStatsResult :=
  if frame_times = [] then .emptyMap
  else
    let avg := frame_times.sum / (frame_times.length : ℚ)
    if avg = 0 then .divisionByZero
    else
      .stats avg (pyListMaxQ frame_times) (pyListMinQ frame_times)
        frame_times.length (1 / avg)

/-- C9: recording a single zero frame duration produces a reachable
non-empty buffer on which `get_performance_stats` raises
`ZeroDivisionError`; on every non-empty buffer whose durations do not sum
to zero it returns the average, maximum, minimum, count and
`estimated_fps = 1 / avg = count / sum`. -/
theorem get_performance_stats_spec :
    (track_performance [] 0 = [0] ∧
      get_performance_stats (track_performance [] 0) = .divisionByZero) ∧
    ∀ ts : List ℚ, ts ≠ [] → ts.sum ≠ 0 →
      get_performance_stats ts =
        .stats (ts.sum / (ts.length : ℚ)) (pyListMaxQ ts) (pyListMinQ ts)
          ts.length ((ts.length : ℚ) / ts.sum) := by
  constructor
  · constructor
    · norm_num [track_performance]
    · norm_num [track_performance, get_performance_stats]
  · intro ts h1 h2
    have hlen : (ts.length : ℚ) ≠ 0 := by
      have : ts.length ≠ 0 := by
        intro h
        exact h1 (List.length_eq_zero.mp h)
      exact_mod_cast this
    have havg : ts.sum / (ts.length : ℚ) ≠ 0 := div_ne_zero h2 hlen
    simp only [get_performance_stats, if_neg h1, if_neg havg]
    rw [one_div_div]

/-- Witness for `get_performance_stats_spec` on the buffer `[1/2]`. -/
theorem get_performance_stats_spec_witness :
    (([(1 : ℚ)/2] : List ℚ) ≠ [] ∧ ([(1 : ℚ)/2] : List ℚ).sum ≠ 0) ∧
    get_performance_stats [(1 : ℚ)/2] =
      .stats (([(1 : ℚ)/2] : List ℚ).sum / (([(1 : ℚ)/2] : List ℚ).length : ℚ))
        (pyListMaxQ [(1 : ℚ)/2]) (pyListMinQ [(1 : ℚ)/2])
        ([(1 : ℚ)/2] : List ℚ).length
        ((([(1 : ℚ)/2] : List ℚ).length : ℚ) / ([(1 : ℚ)/2] : List ℚ).sum) :=
  ⟨⟨by simp, by norm_num⟩,
    (get_performance_stats_spec).2 [(1 : ℚ)/2] (by simp) (by norm_num)⟩

/-! ## The settings store (`gui/core/settings.py`)

Python values that can appear in the settings dictionary.  Lists and
dictionaries are represented by the mutually inductive `PyList`/`PyDict`
(insertion-ordered, as Python dicts are), converted to ordinary Lean lists
at the use sites. -/

mutual
inductive PyValue where
  | pynone
  | pbool (b : Bool)
  | pint (n : ℤ)
  | pstr (s : List Char)
  | plist (xs : PyList)
  | pdict (kvs : PyDict)
deriving DecidableEq

inductive PyList where
  | nil
  | cons (x : PyValue) (xs : PyList)
deriving DecidableEq

inductive PyDict where
  | nil
  | cons (k : String) (v : PyValue) (kvs : PyDict)
deriving DecidableEq
end

def PyList.toList : PyList → List PyValue
  | .nil => []
  | .cons x xs => x :: xs.toList

def PyList.ofList : List PyValue → PyList
  | [] => .nil
  | x :: xs => .cons x (ofList xs)

def PyDict.toList : PyDict → List (String × PyValue)
  | .nil => []
  | .cons k v kvs => (k, v) :: kvs.toList

def PyValue.isList : PyValue → Bool
  | .plist _ => true
  | _ => false

def PyValue.isDict : PyValue → Bool
  | .pdict _ => true
  | _ => false

/-- Python `dict.get(key)` with its default of `None`. -/
def pyGet (settings : List (String × PyValue)) (key : String) : PyValue :=
  match settings.lookup key with
  | some v => v
  | none => .pynone

/-- Python `d[key] = value`: overwrite in place, or append a new key at
the end (insertion order). -/
def dictSet : List (String × PyValue) → String → PyValue → List (String × PyValue)
  | [], key, value => [(key, value)]
  | (k, v) :: rest, key, value =>
      if k = key then (k, value) :: rest else (k, v) :: dictSet rest key value

/-- Python `key in d`. -/
def hasKey (settings : List (String × PyValue)) (key : String) : Bool :=
  (settings.lookup key).isSome

/-- Python `int(s)` on a string: optional surrounding whitespace, optional
sign, then decimal digits.  (Underscore digit grouping, which CPython also
accepts, is not modelled; no caller below parses such strings.) -/
def parsePyInt (s : List Char) : Option ℤ :=
  let t := pyStrip s
  let signed : ℤ × List Char :=
    match t with
    | '-' :: rest => (-1, rest)
    | '+' :: rest => (1, rest)
    | _ => (1, t)
  if signed.2 ≠ [] ∧ signed.2.all (fun c => decide ('0' ≤ c) && decide (c ≤ '9')) then
    some (signed.1 *
      (signed.2.foldl (fun acc c => acc * 10 + ((c.toNat - '0'.toNat : ℕ) : ℤ)) 0))
  else none

/-- Python `int(value)` on a settings value: `int` passes through, `bool`
converts to `0`/`1` (a subclass of `int`), numeric strings parse; any
other type raises (`none`). -/
def pyToInt : PyValue → Option ℤ
  | .pint n => some n
  | .pbool b => some (if b then 1 else 0)
  | .pstr s => parsePyInt s
  | _ => none

/-- `RGBColor.to_dict`: the dictionary `{r: ..., g: ..., b: ...}`. -/
def RGBColor.to_dict (c : RGBColor) : PyValue :=
  .pdict (.cons "r" (.pint c.r) (.cons "g" (.pint c.g) (.cons "b" (.pint c.b) .nil)))

/-- `RGBColor.from_dict`: the value must be a dict containing keys `r`,
`g`, `b`; each channel passes through `int(...)` and the validating
constructor.  `none` models the raised `ValueError`. -/
def RGBColor.from_dict (color_dict : PyValue) : Option RGBColor :=
  match color_dict with
  | .pdict kvs =>
      let m := kvs.toList
      if hasKey m "r" && hasKey m "g" && hasKey m "b" then
        match pyToInt (pyGet m "r"), pyToInt (pyGet m "g"), pyToInt (pyGet m "b") with
        | some r, some g, some b => RGBColor.make r g b
        | _, _, _ => none
      else none
  | _ => none

def joinCommaList (xss : List (List Char)) : List Char :=
  List.intercalate (", ".toList) xss

mutual
/-- Python `repr(value)` over the settings value universe (string quoting
and escaping reduced to surrounding quotes). -/
def pyRepr : PyValue → List Char
  | .pynone => "None".toList
  | .pbool b => if b then "True".toList else "False".toList
  | .pint n => (toString n).toList
  | .pstr s => Char.ofNat 39 :: s ++ [Char.ofNat 39]
  | .plist xs => '[' :: (joinCommaList (pyReprList xs) ++ [']'])
  | .pdict kvs => Char.ofNat 123 :: (joinCommaList (pyReprDict kvs) ++ [Char.ofNat 125])

def pyReprList : PyList → List (List Char)
  | .nil => []
  | .cons x xs => pyRepr x :: pyReprList xs

def pyReprDict : PyDict → List (List Char)
  | .nil => []
  | .cons k v kvs =>
      ((Char.ofNat 39 :: k.toList ++ [Char.ofNat 39]) ++ ':' :: ' ' :: pyRepr v) ::
        pyReprDict kvs
end

/-- Python `str(value)`: identity on strings, the `repr` rendering
otherwise. -/
def pyStr : PyValue → List Char
  | .pstr s => s
  | v => pyRepr v

/-- Modelled from the spec: `default_settings` lives in
`gui/core/constants.py`, which is not among the provided sources.  The keys
follow spec §3 and §4.3 — a zone-colors list, current color, brightness,
effect speed, effect and gradient hex colors (with setting-specific
defaults, per the spec's validation table), and the last clean-shutdown
flag; the concrete values are representative. -/
def default_settings : List (String × PyValue) :=
  [("zone_colors", .plist (.ofList [RGBColor.to_dict ⟨255, 0, 0⟩,
      RGBColor.to_dict ⟨0, 255, 0⟩, RGBColor.to_dict ⟨0, 0, 255⟩,
      RGBColor.to_dict ⟨255, 255, 0⟩])),
   ("current_color", RGBColor.to_dict ⟨255, 255, 255⟩),
   ("brightness", .pint 100),
   ("effect_speed", .pint 5),
   ("effect_color", .pstr "#FFFFFF".toList),
   ("gradient_start_color", .pstr "#FF0000".toList),
   ("gradient_end_color", .pstr "#0000FF".toList),
   ("clean_shutdown", .pbool false)]

/-- The cyclically indexed default used by `_validate_zone_colors` for an
invalid entry: `default_settings["zone_colors"][i % len(...)]`.  `none`
models the exceptions a missing, non-list or empty default would raise. -/
def zoneColorDefault (defaults : List (String × PyValue)) (i : ℕ) : Option PyValue :=
  match defaults.lookup "zone_colors" with
  | some (.plist dz) =>
      let l := dz.toList
      if l = [] then none else l[i % l.length]?
  | _ => none

/-- `SettingsManager._validate_zone_colors`: the value must be a list;
each entry is re-validated through `RGBColor.from_dict`/`to_dict`, an
invalid entry being replaced by the cyclically indexed default rather than
failing the whole list.  `none` models a raised exception. -/
def validate_zone_colors (defaults : List (String × PyValue)) (zone_colors : PyValue) :
    Option PyValue :=
  match zone_colors with
  | .plist entries =>
      (entries.toList.enum.mapM (fun (p : ℕ × PyValue) =>
          match RGBColor.from_dict p.2 with
          | some c => some c.to_dict
          | none => zoneColorDefault defaults p.1)).map
        (fun l => PyValue.plist (.ofList l))
  | _ => none

/-- `SettingsManager._validate_color_dict`: validate through
`RGBColor.from_dict`, falling back to `default_settings["current_color"]`
(`none` only for the `KeyError` of a schema lacking that key). -/
def validate_color_dict (defaults : List (String × PyValue)) (color_data : PyValue) :
    Option PyValue :=
  match RGBColor.from_dict color_data with
  | some c => some c.to_dict
  | none => defaults.lookup "current_color"

/-- `SettingsManager._validate_numeric_range`: brightness clamps into
`[0, 100]`, effect speed into `[1, 10]`, other names pass through; a
failed `int(...)` conversion falls back to
`default_settings[setting_name]`. -/
def validate_numeric_range (defaults : List (String × PyValue)) (value : PyValue)
    (setting_name : String) : Option PyValue :=
  if setting_name = "brightness" then
    match pyToInt value with
    | some n => some (.pint (max 0 (min 100 n)))
    | none => defaults.lookup setting_name
  else if setting_name = "effect_speed" then
    match pyToInt value with
    | some n => some (.pint (max 1 (min 10 n)))
    | none => defaults.lookup setting_name
  else some value

/-- Python `sub in s` on strings: substring containment. -/
def strContains : List Char → List Char → Bool
  | [], sub => sub.isEmpty
  | c :: rest, sub => List.isPrefixOf sub (c :: rest) || strContains rest sub

/-- `SettingsManager._validate_hex_color`: a string accepted by
`RGBColor.from_hex` passes through unchanged; anything else falls back to
a default chosen by searching the *value's* string rendering for the
substrings `"gradient_start"` / `"gradient_end"` — the setting name is not
available to this function. -/
def validate_hex_color (defaults : List (String × PyValue)) (value : PyValue) :
    Option PyValue :=
  let fallback : Option PyValue :=
    if strContains (pyStr value) ("gradient_start".toList) then
      defaults.lookup "gradient_start_color"
    else if strContains (pyStr value) ("gradient_end".toList) then
      defaults.lookup "gradient_end_color"
    else defaults.lookup "effect_color"
  match value with
  | .pstr s =>
      match RGBColor.from_hex s with
      | some _ => some value
      | none => fallback
  | _ => fallback

/-- Python `isinstance(value, type(default))` over the settings value
universe (`bool` is a subclass of `int`). -/
def isinstanceOfTypeOf : PyValue → PyValue → Bool
  | .pynone, .pynone => true
  | .pbool _, .pbool _ => true
  | .pbool _, .pint _ => true
  | .pint _, .pint _ => true
  | .pstr _, .pstr _ => true
  | .plist _, .plist _ => true
  | .pdict _, .pdict _ => true
  | _, _ => false

/-- One key's validation inside `_validate_and_merge_settings`.  `none`
models both a raised validation exception and a failed `isinstance` check;
either way the default stays in place. -/
def mergeValidate (defaults : List (String × PyValue)) (key : String) (value : PyValue) :
    Option PyValue :=
  if key = "zone_colors" then validate_zone_colors defaults value
  else if key = "current_color" then validate_color_dict defaults value
  else if key = "brightness" ∨ key = "effect_speed" then
    validate_numeric_range defaults value key
  else if key = "effect_color" ∨ key = "gradient_start_color" ∨
      key = "gradient_end_color" then
    validate_hex_color defaults value
  else
    match defaults.lookup key with
    | some d => if isinstanceOfTypeOf value d then some value else none
    | none => none

/-- `SettingsManager._validate_and_merge_settings`: start from a copy of
the defaults; for each loaded key that the schema knows, store its
validated value, keeping the default when validation fails; unknown keys
are ignored. -/
def validate_and_merge_settings (defaults loaded : List (String × PyValue)) :
    List (String × PyValue) :=
  loaded.foldl
    (fun validated_settings kv =>
      if hasKey defaults kv.1 then
        match mergeValidate defaults kv.1 kv.2 with
        | some v => dictSet validated_settings kv.1 v
        | none => validated_settings
      else validated_settings)
    defaults

/-- `SettingsManager.set`: validate by key (zone colors only when the
value is a list, the current color only when it is a dict), then store if
and only if the validated value differs from the current one — Python
`dict.get` reads an absent key as `None`.  A raised validation exception
returns `False` with the store untouched. -/
def set_setting (defaults settings : List (String × PyValue)) (key : String)
    (value : PyValue) : Bool × List (String × PyValue) :=
  let validated? : Option PyValue :=
    if key = "zone_colors" ∧ value.isList then validate_zone_colors defaults value
    else if key = "current_color" ∧ value.isDict then validate_color_dict defaults value
    else if key = "brightness" ∨ key = "effect_speed" then
      validate_numeric_range defaults value key
    else if key = "effect_color" ∨ key = "gradient_start_color" ∨
        key = "gradient_end_color" then
      validate_hex_color defaults value
    else some value
  match validated? with
  | none => (false, settings)
  | some validated_value =>
      if pyGet settings key ≠ validated_value then
        (true, dictSet settings key validated_value)
      else (false, settings)

/-- `SettingsManager.update`: one `set` per entry, counting the changed
ones. -/
def update_settings (defaults settings : List (String × PyValue))
    (settings_dict : List (String × PyValue)) : ℕ × List (String × PyValue) :=
  settings_dict.foldl
    (fun acc kv =>
      let r := set_setting defaults acc.2 kv.1 kv.2
      (acc.1 + (if r.1 then 1 else 0), r.2))
    (0, settings)

/-- `SettingsManager.reset_to_defaults`. -/
def reset_to_defaults (defaults : List (String × PyValue)) : List (String × PyValue) :=
  defaults

/-- `SettingsManager.import_settings` once the file is parsed: the
`settings` sub-document of the export format (or the whole document) is
merged; a non-dict `settings` entry raises, failing the import (`none`). -/
def import_settings (defaults : List (String × PyValue))
    (import_data : List (String × PyValue)) : Option (List (String × PyValue)) :=
  match import_data.lookup "settings" with
  | some (.pdict kvs) => some (validate_and_merge_settings defaults kvs.toList)
  | some _ => none
  | none => some (validate_and_merge_settings defaults import_data)

/-- What `_load_settings` finds on disk: a parsed settings file, a missing
file, or a corrupt file plus the backups, newest first (`none` marks a
backup that fails to parse). -/
inductive DiskState where
  | fileOk (loaded : List (String × PyValue))
  | fileMissing
  | fileCorrupt (backups : List (Option (List (String × PyValue))))

/-- `SettingsManager._load_settings` together with
`_restore_from_backup`: a parsed file is merged over the defaults; a
missing file seeds the defaults; on a corrupt file the newest parseable
backup (its `_metadata` entry removed) is merged, with the defaults as the
final fallback. -/
def load_settings (defaults : List (String × PyValue)) : DiskState →
    List (String × PyValue)
  | .fileOk loaded => validate_and_merge_settings defaults loaded
  | .fileMissing => defaults
  | .fileCorrupt backups =>
      match backups.findSome? (fun b => b) with
      | some backup =>
          validate_and_merge_settings defaults
            (backup.filter (fun kv => kv.1 != "_metadata"))
      | none => defaults

theorem lookup_dictSet_self (s : List (String × PyValue)) (k : String) (v : PyValue) :
    (dictSet s k v).lookup k = some v := by
  induction s with
  | nil => simp [dictSet, List.lookup]
  | cons kv rest ih =>
      obtain ⟨k', v'⟩ := kv
      by_cases h : k' = k
      · subst h
        simp [dictSet, List.lookup]
      · simp only [dictSet, if_neg h, List.lookup]
        have hbeq : (k == k') = false := by
          simp [Ne.symm h]
        rw [hbeq]
        exact ih

theorem pyGet_dictSet_self (s : List (String × PyValue)) (k : String) (v : PyValue) :
    pyGet (dictSet s k v) k = v := by
  simp [pyGet, lookup_dictSet_self]

/-- C8: on an integer input, `set("brightness", v)` stores `v` clamped
into `[0, 100]` and `set("effect_speed", v)` stores `v` clamped into
`[1, 10]`; each returns `true` exactly when the stored value changed. -/
theorem set_numeric_clamps (defaults settings : List (String × PyValue)) (v : ℤ) :
    pyGet (set_setting defaults settings "brightness" (.pint v)).2 "brightness" =
      .pint (max 0 (min 100 v)) ∧
    ((set_setting defaults settings "brightness" (.pint v)).1 = true ↔
      pyGet settings "brightness" ≠ .pint (max 0 (min 100 v))) ∧
    pyGet (set_setting defaults settings "effect_speed" (.pint v)).2 "effect_speed" =
      .pint (max 1 (min 10 v)) ∧
    ((set_setting defaults settings "effect_speed" (.pint v)).1 = true ↔
      pyGet settings "effect_speed" ≠ .pint (max 1 (min 10 v))) := by
  have hbr : set_setting defaults settings "brightness" (.pint v) =
      (if pyGet settings "brightness" ≠ .pint (max 0 (min 100 v)) then
        (true, dictSet settings "brightness" (.pint (max 0 (min 100 v))))
      else (false, settings)) := by
    simp [set_setting, validate_numeric_range, pyToInt, String.reduceEq]
  have hes : set_setting defaults settings "effect_speed" (.pint v) =
      (if pyGet settings "effect_speed" ≠ .pint (max 1 (min 10 v)) then
        (true, dictSet settings "effect_speed" (.pint (max 1 (min 10 v))))
      else (false, settings)) := by
    simp [set_setting, validate_numeric_range, pyToInt, String.reduceEq]
  rw [hbr, hes]
  by_cases h1 : pyGet settings "brightness" ≠ .pint (max 0 (min 100 v)) <;>
    by_cases h2 : pyGet settings "effect_speed" ≠ .pint (max 1 (min 10 v)) <;>
    simp [h1, h2, pyGet_dictSet_self] <;>
    first
      | exact not_ne_iff.mp h1
      | exact not_ne_iff.mp h2
      | exact ⟨not_ne_iff.mp h1, not_ne_iff.mp h2⟩

/-- C10 (amended): for a key outside the validated set, `set` applies no
validation at all — it returns `true` and stores the raw value exactly
when the value differs from the current read of that key, an absent key
reading as `None`.  In particular a key absent from the schema is added
whenever the value is not `None`, while `set(key, None)` on an absent key
returns `false` and does not add the key. -/
theorem set_unvalidated_keys (defaults settings : List (String × PyValue))
    (key : String) (value : PyValue)
    (hk : key ∉ (["zone_colors", "current_color", "brightness", "effect_speed",
      "effect_color", "gradient_start_color", "gradient_end_color"] : List String)) :
    set_setting defaults settings key value =
      (if pyGet settings key ≠ value then (true, dictSet settings key value)
       else (false, settings)) := by
  simp only [List.mem_cons, List.not_mem_nil, or_false, not_or] at hk
  obtain ⟨h1, h2, h3, h4, h5, h6, h7⟩ := hk
  simp [set_setting, h1, h2, h3, h4, h5, h6, h7]

/-- C10 counterexample: `set("custom_key", None)` on a store lacking that
key reads the absent key as `None`, finds no difference, returns `false`
and does not add the key — against the claim that keys absent from the
schema are stored as given and thereby added. -/
theorem set_none_not_added :
    (set_setting default_settings [] "custom_key" PyValue.pynone).1 = false ∧
    hasKey (set_setting default_settings [] "custom_key" PyValue.pynone).2
      "custom_key" = false := by
  constructor <;> decide

/-- Witness for `set_unvalidated_keys` at the schema-less key
`"custom_key"` with a string value on the empty store. -/
theorem set_unvalidated_keys_witness :
    ("custom_key" ∉ (["zone_colors", "current_color", "brightness", "effect_speed",
      "effect_color", "gradient_start_color", "gradient_end_color"] : List String)) ∧
    set_setting default_settings [] "custom_key" (PyValue.pstr "x".toList) =
      (if pyGet [] "custom_key" ≠ PyValue.pstr "x".toList then
        (true, dictSet [] "custom_key" (PyValue.pstr "x".toList))
       else (false, [])) :=
  ⟨by decide, set_unvalidated_keys default_settings [] "custom_key"
    (PyValue.pstr "x".toList) (by decide)⟩

/-- C5 (code bug): a malformed `gradient_start_color` value loaded from
disk is replaced by the `effect_color` default, not by that key's own
default — `_validate_hex_color` searches the malformed *value's* string
rendering for `"gradient_start"` instead of dispatching on the setting
name. -/
theorem gradient_default_substitution_bug :
    (validate_and_merge_settings default_settings
        [("gradient_start_color", PyValue.pint 5)]).lookup "gradient_start_color" =
      default_settings.lookup "effect_color" ∧
    default_settings.lookup "effect_color" ≠
      default_settings.lookup "gradient_start_color" := by
  constructor <;> decide

/-! ## C4 — `stop_effect` -/

/-- The environment one `stop_effect` call runs against: whether
`current_effect.stop()` raises (effect implementations are arbitrary
code), whether the render thread exits within the `join(timeout=2.0)`
window, and whether the hardware sink is present and `is_operational()`. -/
structure StopEnv where
  effectStopRaises : Bool
  threadExitsInTime : Bool
  hardwareOperational : Bool
deriving DecidableEq

/-- The manager flags `stop_effect` touches. -/
structure MgrFlags where
  is_running : Bool
  stopEventSet : Bool
  hasCurrentEffect : Bool
  hasThread : Bool
deriving DecidableEq

/-- Observable outcome of one `stop_effect` call: the returned boolean,
whether `clear_all_leds()` was invoked, and whether the
did-not-stop-gracefully warning was logged. -/
structure StopOutcome where
  result : Bool
  clearedHardware : Bool
  warnedNotStopped : Bool
deriving DecidableEq

/-- `EffectManager.stop_effect`, straight-line.  An idle manager returns
success immediately.  Otherwise the stop event is set and `is_running`
cleared; a raising `current_effect.stop()` lands in the `except` handler,
which returns failure before the cleanup runs; otherwise the thread is
joined with the bounded timeout (only a warning if it stays alive) and
`clear_all_leds` is invoked exactly when the hardware sink is
operational. -/
def stop_effect (flags : MgrFlags) (env : StopEnv) : StopOutcome × MgrFlags :=
  if !flags.is_running then
    (⟨true, false, false⟩, flags)
  else
    let flags2 := { flags with stopEventSet := true, is_running := false }
    if flags2.hasCurrentEffect && env.effectStopRaises then
      (⟨false, false, false⟩, flags2)
    else
      let warned := flags2.hasThread && !env.threadExitsInTime
      (⟨true, env.hardwareOperational, warned⟩,
        { flags2 with hasCurrentEffect := false, hasThread := false })

/-- C4 counterexample: a running effect whose `stop()` raises makes
`stop_effect` return failure without ever commanding the hardware to
black — the `except` handler returns before `clear_all_leds` is reached. -/
theorem stop_effect_no_clear_counterexample :
    stop_effect ⟨true, false, true, true⟩ ⟨true, true, true⟩ =
      (⟨false, false, false⟩, ⟨false, true, true, true⟩) := by
  decide

/-- C4 (amended): every `stop_effect` call from a non-idle state in which
the effect's `stop()` does not raise and the hardware sink is operational
commands the sink to black before returning, regardless of whether the
render thread exits within the bounded timeout; a call during which
`stop()` raises returns failure without clearing, and a non-operational
sink is never commanded. -/
theorem stop_effect_clears (flags : MgrFlags) (env : StopEnv)
    (hrun : flags.is_running = true)
    (hraise : env.effectStopRaises = false)
    (hop : env.hardwareOperational = true) :
    (stop_effect flags env).1.clearedHardware = true ∧
    (stop_effect flags env).1.result = true := by
  simp [stop_effect, hrun, hraise, hop]

/-- Witness for `stop_effect_clears`: a running effect with a thread that
misses the timeout on operational hardware. -/
theorem stop_effect_clears_witness :
    (⟨true, false, true, true⟩ : MgrFlags).is_running = true ∧
    (⟨false, false, true⟩ : StopEnv).effectStopRaises = false ∧
    (⟨false, false, true⟩ : StopEnv).hardwareOperational = true ∧
    ((stop_effect ⟨true, false, true, true⟩ ⟨false, false, true⟩).1.clearedHardware = true ∧
     (stop_effect ⟨true, false, true, true⟩ ⟨false, false, true⟩).1.result = true) :=
  ⟨rfl, rfl, rfl,
    stop_effect_clears ⟨true, false, true, true⟩ ⟨false, false, true⟩ rfl rfl rfl⟩

/-! ## C1 — no interleaving of two effects' frames

A small-step model of `start_effect(B)` running while effect A's render
loop is live.  The control thread holds the manager lock, but
`_effect_loop` reads and writes the shared fields without ever taking it,
so every interleaving of loop steps with control steps is a real
behaviour of the source.  One worker step corresponds to one statement of
`_effect_loop` touching shared state; the `generate_frame` call reads
`self.current_effect` at that moment and the produced frame is dispatched
by a later, separate step.  The hardware sink is assumed operational
throughout, and the test-sink event order is the `trace` field. -/

inductive EffectId where
  | A
  | B
deriving DecidableEq

inductive HwEvent where
  | frame (e : EffectId)
  | clearLeds
  | startSignal (e : EffectId)
deriving DecidableEq

inductive WorkerPc where
  | checkLoop
  | checkPause
  | genFrame
  | dispatchFrame
  | tick
  | finished
deriving DecidableEq

/-- One render-loop thread: its program counter and the effect whose
frame it generated and has yet to dispatch. -/
structure Worker where
  pc : WorkerPc
  pending : Option EffectId
deriving DecidableEq

/-- Program counter of the control thread executing `start_effect(B)`,
with `stop_effect` inlined, one location per statement of the source. -/
inductive CtrlPc where
  | checkRunning
  | setStopEvent
  | setNotRunning
  | stopEffectObj
  | joinThread
  | clearHw
  | nullEffect
  | createEffect
  | clearStopEvent
  | clearPauseEvent
  | resetCounter
  | startEffectObj
  | startThread
  | setRunning
  | ctrlDone
deriving DecidableEq

/-- The shared manager state plus both threads and the hardware trace. -/
structure Sys where
  stopEvent : Bool
  pauseEvent : Bool
  currentEffect : Option EffectId
  isRunning : Bool
  frameCounter : ℕ
  worker1 : Worker
  worker2 : Option Worker
  ctrl : CtrlPc
  trace : List HwEvent
deriving DecidableEq

/-- Effect A running, its loop at the top, `start_effect(B)` invoked. -/
def initSys : Sys :=
  { stopEvent := false, pauseEvent := false, currentEffect := some .A,
    isRunning := true, frameCounter := 0,
    worker1 := ⟨.checkLoop, none⟩, worker2 := none,
    ctrl := .checkRunning, trace := [] }

/-- One statement of `_effect_loop` for a worker: the loop condition reads
the stop event and `current_effect`; the pause check reads the pause
event; `generate_frame` captures `current_effect` (an exception on `None`
is caught by the per-tick handler, which continues the loop); the
dispatch sends the generated frame to the sink; the tick bumps the frame
counter and sleeps. -/
def workerNext (s : Sys) (w : Worker) : Worker × Option HwEvent :=
  match w.pc with
  | .checkLoop =>
      if !s.stopEvent && s.currentEffect.isSome then (⟨.checkPause, w.pending⟩, none)
      else (⟨.finished, w.pending⟩, none)
  | .checkPause =>
      if s.pauseEvent then (⟨.checkLoop, w.pending⟩, none)
      else (⟨.genFrame, w.pending⟩, none)
  | .genFrame =>
      match s.currentEffect with
      | some e => (⟨.dispatchFrame, some e⟩, none)
      | none => (⟨.checkLoop, none⟩, none)
  | .dispatchFrame =>
      match w.pending with
      | some e => (⟨.tick, w.pending⟩, some (.frame e))
      | none => (⟨.tick, none⟩, none)
  | .tick => (⟨.checkLoop, w.pending⟩, none)
  | .finished => (w, none)

def applyWorkerStep (s : Sys) (w : Worker) : Worker × Sys :=
  let r := workerNext s w
  (r.1,
    { s with
      trace := s.trace ++ r.2.toList,
      frameCounter := if w.pc = .tick then s.frameCounter + 1 else s.frameCounter })

def stepWorker1 (s : Sys) : Sys :=
  let p := applyWorkerStep s s.worker1
  { p.2 with worker1 := p.1 }

def stepWorker2 (s : Sys) (w : Worker) : Sys :=
  let p := applyWorkerStep s w
  { p.2 with worker2 := some p.1 }

/-- One statement of `start_effect(B)` (with `stop_effect` inlined): the
running check, the stop signalling, `current_effect.stop()` (internal to
the effect object), the join (see the step relation), the hardware clear,
discarding and re-creating `current_effect`, clearing the events,
resetting the frame counter, `B.start()`, starting the new thread (B's
start signal), and setting `is_running`. -/
def ctrlNext (s : Sys) : Sys :=
  match s.ctrl with
  | .checkRunning =>
      if s.isRunning then { s with ctrl := .setStopEvent }
      else { s with ctrl := .createEffect }
  | .setStopEvent => { s with stopEvent := true, ctrl := .setNotRunning }
  | .setNotRunning => { s with isRunning := false, ctrl := .stopEffectObj }
  | .stopEffectObj => { s with ctrl := .joinThread }
  | .joinThread => { s with ctrl := .clearHw }
  | .clearHw => { s with trace := s.trace ++ [.clearLeds], ctrl := .nullEffect }
  | .nullEffect => { s with currentEffect := none, ctrl := .createEffect }
  | .createEffect => { s with currentEffect := some .B, ctrl := .clearStopEvent }
  | .clearStopEvent => { s with stopEvent := false, ctrl := .clearPauseEvent }
  | .clearPauseEvent => { s with pauseEvent := false, ctrl := .resetCounter }
  | .resetCounter => { s with frameCounter := 0, ctrl := .startEffectObj }
  | .startEffectObj => { s with ctrl := .startThread }
  | .startThread =>
      { s with
        worker2 := some (Worker.mk .checkLoop none)
        trace := s.trace ++ [HwEvent.startSignal .B]
        ctrl := .setRunning }
  | .setRunning => { s with isRunning := true, ctrl := .ctrlDone }
  | .ctrlDone => s

/-- Interleaving semantics.  `timeoutAllowed` distinguishes the two
outcomes of `effect_thread.join(timeout=2.0)`: `joinGraceful` passes the
join only once the old worker has exited (covering both a successful join
and a thread found dead at the `is_alive` check), while `joinTimeout` —
possible only when `timeoutAllowed = true` — passes it with the old
worker still live, as the source does after logging its warning. -/
inductive Step (timeoutAllowed : Bool) : Sys → Sys → Prop where
  | worker1 (s : Sys) (h : s.worker1.pc ≠ .finished) :
      Step timeoutAllowed s (stepWorker1 s)
  | worker2 (s : Sys) (w : Worker) (hw : s.worker2 = some w)
      (h : w.pc ≠ .finished) : Step timeoutAllowed s (stepWorker2 s w)
  | ctrlStep (s : Sys) (h1 : s.ctrl ≠ .joinThread) (h2 : s.ctrl ≠ .ctrlDone) :
      Step timeoutAllowed s (ctrlNext s)
  | joinGraceful (s : Sys) (h1 : s.ctrl = .joinThread)
      (h2 : s.worker1.pc = .finished) : Step timeoutAllowed s (ctrlNext s)
  | joinTimeout (s : Sys) (ht : timeoutAllowed = true)
      (h1 : s.ctrl = .joinThread) : Step timeoutAllowed s (ctrlNext s)

/-- States reachable from `initSys`. -/
inductive Reach (timeoutAllowed : Bool) : Sys → Prop where
  | init : Reach timeoutAllowed initSys
  | step {s s' : Sys} (h : Reach timeoutAllowed s)
      (hs : Step timeoutAllowed s s') : Reach timeoutAllowed s'

/-- A frame of effect A dispatched somewhere after B's start signal. -/
def hasFrameAAfterStartB : List HwEvent → Bool
  | [] => false
  | e :: rest =>
      (e == .startSignal .B && rest.contains (.frame .A)) || hasFrameAAfterStartB rest

/-- C1 counterexample: if the join times out (the old loop is stuck
between generating and dispatching a frame of A — for instance inside a
slow `generate_frame` — for the whole `start_effect(B)` call), the old
worker dispatches A's frame after B's start signal: the trace ends
`[clear, startSignal B, frame A]`. -/
theorem start_effect_interleaving_counterexample :
    ∃ s : Sys, Reach true s ∧ hasFrameAAfterStartB s.trace = true := by
  have r0 : Reach true initSys := Reach.init
  have r1 := r0.step (Step.worker1 _ (by decide))
  have r2 := r1.step (Step.worker1 _ (by decide))
  have r3 := r2.step (Step.worker1 _ (by decide))
  have r4 := r3.step (Step.ctrlStep _ (by decide) (by decide))
  have r5 := r4.step (Step.ctrlStep _ (by decide) (by decide))
  have r6 := r5.step (Step.ctrlStep _ (by decide) (by decide))
  have r7 := r6.step (Step.ctrlStep _ (by decide) (by decide))
  have r8 := r7.step (Step.joinTimeout _ rfl (by decide))
  have r9 := r8.step (Step.ctrlStep _ (by decide) (by decide))
  have r10 := r9.step (Step.ctrlStep _ (by decide) (by decide))
  have r11 := r10.step (Step.ctrlStep _ (by decide) (by decide))
  have r12 := r11.step (Step.ctrlStep _ (by decide) (by decide))
  have r13 := r12.step (Step.ctrlStep _ (by decide) (by decide))
  have r14 := r13.step (Step.ctrlStep _ (by decide) (by decide))
  have r15 := r14.step (Step.ctrlStep _ (by decide) (by decide))
  have r16 := r15.step (Step.ctrlStep _ (by decide) (by decide))
  have r17 := r16.step (Step.worker1 _ (by decide))
  exact ⟨_, r17, by decide⟩

theorem hwEvent_beq_comm (x y : HwEvent) : (x == y) = (y == x) := by
  by_cases h : x = y
  · subst h; rfl
  · have hx : (x == y) = false := by simp [h]
    have hy : (y == x) = false := by simp [Ne.symm h]
    rw [hx, hy]

theorem contains_append_singleton (tr : List HwEvent) (e x : HwEvent) :
    (tr ++ [e]).contains x = (tr.contains x || e == x) := by
  induction tr with
  | nil =>
      simp only [List.nil_append, List.contains_cons, List.contains_nil,
        Bool.or_false, Bool.false_or]
      exact hwEvent_beq_comm x e
  | cons a as ih =>
      simp only [List.cons_append, List.contains_cons, ih, Bool.or_assoc]

theorem hasA_append (tr : List HwEvent) (e : HwEvent) :
    hasFrameAAfterStartB (tr ++ [e]) =
      (hasFrameAAfterStartB tr ||
        (e == HwEvent.frame .A && tr.contains (HwEvent.startSignal .B))) := by
  induction tr with
  | nil => cases e <;> simp [hasFrameAAfterStartB]
  | cons a as ih =>
      rw [List.cons_append]
      rw [show hasFrameAAfterStartB (a :: (as ++ [e])) =
          ((a == HwEvent.startSignal .B && (as ++ [e]).contains (HwEvent.frame .A)) ||
            hasFrameAAfterStartB (as ++ [e])) from rfl]
      rw [contains_append_singleton, ih]
      rw [show hasFrameAAfterStartB (a :: as) =
          ((a == HwEvent.startSignal .B && as.contains (HwEvent.frame .A)) ||
            hasFrameAAfterStartB as) from rfl]
      rw [List.contains_cons]
      rw [hwEvent_beq_comm (HwEvent.startSignal .B) a]
      generalize (a == HwEvent.startSignal EffectId.B) = X
      generalize (as.contains (HwEvent.frame EffectId.A)) = C
      generalize (e == HwEvent.frame EffectId.A) = Y
      generalize (hasFrameAAfterStartB as) = H
      generalize (as.contains (HwEvent.startSignal EffectId.B)) = D
      revert X C Y H D
      decide

def ctrlPastJoin : CtrlPc → Bool
  | .clearHw | .nullEffect | .createEffect | .clearStopEvent | .clearPauseEvent
  | .resetCounter | .startEffectObj | .startThread | .setRunning | .ctrlDone => true
  | _ => false

def ctrlPastCreate : CtrlPc → Bool
  | .clearStopEvent | .clearPauseEvent | .resetCounter | .startEffectObj
  | .startThread | .setRunning | .ctrlDone => true
  | _ => false

def ctrlPastStart : CtrlPc → Bool
  | .setRunning | .ctrlDone => true
  | _ => false

/-- The inductive invariant of graceful executions: no A-frame after B's
start signal; the signal is in the trace exactly once control passed
`startThread`; past a graceful join the old worker has exited; past
`createEffect` the current effect is B; the new worker exists exactly past
`startThread` and never holds an A frame; and control at `checkRunning`
still sees `is_running`. -/
def SysInv (s : Sys) : Prop :=
  hasFrameAAfterStartB s.trace = false ∧
  s.trace.contains (HwEvent.startSignal .B) = ctrlPastStart s.ctrl ∧
  (ctrlPastJoin s.ctrl = true → s.worker1.pc = .finished) ∧
  (ctrlPastCreate s.ctrl = true → s.currentEffect = some .B) ∧
  s.worker2.isSome = ctrlPastStart s.ctrl ∧
  (∀ w, s.worker2 = some w → w.pending ≠ some .A) ∧
  (s.ctrl = .checkRunning → s.isRunning = true)

theorem SysInv_init : SysInv initSys := by
  refine ⟨rfl, rfl, ?_, ?_, rfl, ?_, ?_⟩
  · intro h; cases h
  · intro h; cases h
  · intro w h; cases h
  · intro _; rfl

theorem ctrlPastStart_pastJoin :
    ∀ c, ctrlPastStart c = true → ctrlPastJoin c = true := by
  intro c; cases c <;> simp [ctrlPastStart, ctrlPastJoin]

theorem ctrlPastStart_pastCreate :
    ∀ c, ctrlPastStart c = true → ctrlPastCreate c = true := by
  intro c; cases c <;> simp [ctrlPastStart, ctrlPastCreate]

theorem frame_ne_startB (e : EffectId) :
    (HwEvent.frame e == HwEvent.startSignal .B) = false := by
  cases e <;> rfl

theorem frameB_ne_frameA :
    (HwEvent.frame .B == HwEvent.frame .A) = false := rfl

theorem SysInv_step {s s' : Sys} (hstep : Step false s s') (hinv : SysInv s) :
    SysInv s' := by
  obtain ⟨h1, h2, h3, h4, h5, h6, h7⟩ := hinv
  cases hstep with
  | worker1 hw =>
      have hnpj : ctrlPastJoin s.ctrl = false := by
        cases hq : ctrlPastJoin s.ctrl
        · rfl
        · exact absurd (h3 hq) hw
      have hnps : ctrlPastStart s.ctrl = false := by
        cases hq : ctrlPastStart s.ctrl
        · rfl
        · rw [ctrlPastStart_pastJoin _ hq] at hnpj
          cases hnpj
      have hsB : s.trace.contains (HwEvent.startSignal .B) = false := by
        rw [h2, hnps]
      have hnj : ∀ (hpj : ctrlPastJoin s.ctrl = true) (P : Prop), P := by
        intro hpj P
        rw [hnpj] at hpj
        cases hpj
      cases hw1 : s.worker1 with
      | mk wpc wpend =>
      rw [hw1] at hw
      simp only [stepWorker1, applyWorkerStep, workerNext, hw1]
      cases wpc with
      | finished => exact absurd rfl hw
      | checkLoop =>
          by_cases hcnd : (!s.stopEvent && s.currentEffect.isSome) = true
          · simp only [hcnd, eq_self_iff_true, if_true]
            exact ⟨by simpa using h1, by simpa using h2, fun hpj => hnj hpj _,
              h4, h5, h6, h7⟩
          · rw [Bool.not_eq_true] at hcnd
            simp only [hcnd, Bool.false_eq_true, if_false]
            exact ⟨by simpa using h1, by simpa using h2, fun hpj => hnj hpj _,
              h4, h5, h6, h7⟩
      | checkPause =>
          by_cases hcnd : s.pauseEvent = true
          · simp only [hcnd, eq_self_iff_true, if_true]
            exact ⟨by simpa using h1, by simpa using h2, fun hpj => hnj hpj _,
              h4, h5, h6, h7⟩
          · rw [Bool.not_eq_true] at hcnd
            simp only [hcnd, Bool.false_eq_true, if_false]
            exact ⟨by simpa using h1, by simpa using h2, fun hpj => hnj hpj _,
              h4, h5, h6, h7⟩
      | genFrame =>
          cases hce : s.currentEffect with
          | some e =>
              rw [hce] at h4
              exact ⟨by simpa using h1, by simpa using h2, fun hpj => hnj hpj _,
                h4, h5, h6, h7⟩
          | none =>
              rw [hce] at h4
              exact ⟨by simpa using h1, by simpa using h2, fun hpj => hnj hpj _,
                h4, h5, h6, h7⟩
      | dispatchFrame =>
          cases wpend with
          | none =>
              exact ⟨by simpa using h1, by simpa using h2, fun hpj => hnj hpj _,
                h4, h5, h6, h7⟩
          | some e =>
              refine ⟨?_, ?_, fun hpj => hnj hpj _, h4, h5, h6, h7⟩
              · show hasFrameAAfterStartB (s.trace ++ [HwEvent.frame e]) = false
                rw [hasA_append, hsB, h1]
                simp
              · show (s.trace ++ [HwEvent.frame e]).contains (HwEvent.startSignal .B) = _
                rw [contains_append_singleton, frame_ne_startB, h2]
                simp
      | tick =>
          exact ⟨by simpa using h1, by simpa using h2, fun hpj => hnj hpj _,
            h4, h5, h6, h7⟩
  | worker2 w hww hw =>
      have hps : ctrlPastStart s.ctrl = true := by
        rw [← h5, hww]
        rfl
      have hceB : s.currentEffect = some .B :=
        h4 (ctrlPastStart_pastCreate _ hps)
      have hpend : w.pending ≠ some .A := h6 w hww
      obtain ⟨wpc, wpend⟩ := w
      simp only at hpend
      simp only [stepWorker2, applyWorkerStep, workerNext]
      cases wpc with
      | finished => exact absurd rfl hw
      | checkLoop =>
          by_cases hcnd : (!s.stopEvent && s.currentEffect.isSome) = true
          · simp only [hcnd, eq_self_iff_true, if_true]
            refine ⟨by simpa using h1, by simpa using h2, h3, h4, ?_, ?_, h7⟩
            · rw [hps]
              rfl
            · intro w2 hw2
              injection hw2 with hw2e
              rw [← hw2e]
              exact hpend
          · rw [Bool.not_eq_true] at hcnd
            simp only [hcnd, Bool.false_eq_true, if_false]
            refine ⟨by simpa using h1, by simpa using h2, h3, h4, ?_, ?_, h7⟩
            · rw [hps]
              rfl
            · intro w2 hw2
              injection hw2 with hw2e
              rw [← hw2e]
              exact hpend
      | checkPause =>
          by_cases hcnd : s.pauseEvent = true
          · simp only [hcnd, eq_self_iff_true, if_true]
            refine ⟨by simpa using h1, by simpa using h2, h3, h4, ?_, ?_, h7⟩
            · rw [hps]
              rfl
            · intro w2 hw2
              injection hw2 with hw2e
              rw [← hw2e]
              exact hpend
          · rw [Bool.not_eq_true] at hcnd
            simp only [hcnd, Bool.false_eq_true, if_false]
            refine ⟨by simpa using h1, by simpa using h2, h3, h4, ?_, ?_, h7⟩
            · rw [hps]
              rfl
            · intro w2 hw2
              injection hw2 with hw2e
              rw [← hw2e]
              exact hpend
      | genFrame =>
          rw [hceB]
          refine ⟨by simpa using h1, by simpa using h2, h3, fun _ => rfl, ?_, ?_, h7⟩
          · rw [hps]
            rfl
          · intro w2 hw2
            injection hw2 with hw2e
            rw [← hw2e]
            simp
      | dispatchFrame =>
          cases wpend with
          | none =>
              refine ⟨by simpa using h1, by simpa using h2, h3, h4, ?_, ?_, h7⟩
              · rw [hps]
                rfl
              · intro w2 hw2
                injection hw2 with hw2e
                rw [← hw2e]
                simp
          | some e =>
              cases e with
              | A => exact absurd rfl hpend
              | B =>
                  refine ⟨?_, ?_, h3, h4, ?_, ?_, h7⟩
                  · show hasFrameAAfterStartB (s.trace ++ [HwEvent.frame .B]) = false
                    rw [hasA_append, h1, frameB_ne_frameA]
                    simp
                  · show (s.trace ++ [HwEvent.frame .B]).contains
                        (HwEvent.startSignal .B) = _
                    rw [contains_append_singleton, frame_ne_startB, h2]
                    simp
                  · rw [hps]
                    rfl
                  · intro w2 hw2
                    injection hw2 with hw2e
                    rw [← hw2e]
                    simp
      | tick =>
          refine ⟨by simpa using h1, by simpa using h2, h3, h4, ?_, ?_, h7⟩
          · rw [hps]
            rfl
          · intro w2 hw2
            injection hw2 with hw2e
            rw [← hw2e]
            exact hpend
  | ctrlStep hc1 hc2 =>
      simp only [ctrlNext]
      cases hct : s.ctrl with
      | joinThread => exact absurd hct hc1
      | ctrlDone => exact absurd hct hc2
      | checkRunning =>
          rw [hct] at h2 h5 h7
          rw [h7 rfl]
          simp only [eq_self_iff_true, if_true]
          exact ⟨h1, by rw [h2]; rfl, by intro hpj; simp [ctrlPastJoin] at hpj,
            by intro hpc; simp [ctrlPastCreate] at hpc, by rw [h5]; rfl, h6,
            by intro hc; simp at hc⟩
      | setStopEvent =>
          rw [hct] at h2 h5
          exact ⟨h1, by rw [h2]; rfl, by intro hpj; simp [ctrlPastJoin] at hpj,
            by intro hpc; simp [ctrlPastCreate] at hpc, by rw [h5]; rfl, h6,
            by intro hc; simp at hc⟩
      | setNotRunning =>
          rw [hct] at h2 h5
          exact ⟨h1, by rw [h2]; rfl, by intro hpj; simp [ctrlPastJoin] at hpj,
            by intro hpc; simp [ctrlPastCreate] at hpc, by rw [h5]; rfl, h6,
            by intro hc; simp at hc⟩
      | stopEffectObj =>
          rw [hct] at h2 h5
          exact ⟨h1, by rw [h2]; rfl, by intro hpj; simp [ctrlPastJoin] at hpj,
            by intro hpc; simp [ctrlPastCreate] at hpc, by rw [h5]; rfl, h6,
            by intro hc; simp at hc⟩
      | clearHw =>
          rw [hct] at h2 h3 h5
          refine ⟨?_, ?_, fun _ => h3 rfl, by intro hpc; simp [ctrlPastCreate] at hpc,
            by rw [h5]; rfl, h6, by intro hc; simp at hc⟩
          · show hasFrameAAfterStartB (s.trace ++ [HwEvent.clearLeds]) = false
            rw [hasA_append, h1]
            simp
          · show (s.trace ++ [HwEvent.clearLeds]).contains (HwEvent.startSignal .B) = _
            rw [contains_append_singleton, h2]
            rfl
      | nullEffect =>
          rw [hct] at h2 h3 h5
          exact ⟨h1, by rw [h2]; rfl, fun _ => h3 rfl,
            by intro hpc; simp [ctrlPastCreate] at hpc, by rw [h5]; rfl, h6,
            by intro hc; simp at hc⟩
      | createEffect =>
          rw [hct] at h2 h3 h5
          exact ⟨h1, by rw [h2]; rfl, fun _ => h3 rfl, fun _ => rfl,
            by rw [h5]; rfl, h6, by intro hc; simp at hc⟩
      | clearStopEvent =>
          rw [hct] at h2 h3 h4 h5
          exact ⟨h1, by rw [h2]; rfl, fun _ => h3 rfl, fun _ => h4 rfl,
            by rw [h5]; rfl, h6, by intro hc; simp at hc⟩
      | clearPauseEvent =>
          rw [hct] at h2 h3 h4 h5
          exact ⟨h1, by rw [h2]; rfl, fun _ => h3 rfl, fun _ => h4 rfl,
            by rw [h5]; rfl, h6, by intro hc; simp at hc⟩
      | resetCounter =>
          rw [hct] at h2 h3 h4 h5
          exact ⟨h1, by rw [h2]; rfl, fun _ => h3 rfl, fun _ => h4 rfl,
            by rw [h5]; rfl, h6, by intro hc; simp at hc⟩
      | startEffectObj =>
          rw [hct] at h2 h3 h4 h5
          exact ⟨h1, by rw [h2]; rfl, fun _ => h3 rfl, fun _ => h4 rfl,
            by rw [h5]; rfl, h6, by intro hc; simp at hc⟩
      | startThread =>
          rw [hct] at h2 h3 h4 h5
          refine ⟨?_, ?_, fun _ => h3 rfl, fun _ => h4 rfl, rfl, ?_,
            by intro hc; simp at hc⟩
          · show hasFrameAAfterStartB (s.trace ++ [HwEvent.startSignal .B]) = false
            rw [hasA_append, h1]
            simp
          · show (s.trace ++ [HwEvent.startSignal .B]).contains
                (HwEvent.startSignal .B) = _
            rw [contains_append_singleton]
            simp [ctrlPastStart]
          · intro w2 hw2
            injection hw2 with hw2e
            rw [← hw2e]
            simp
      | setRunning =>
          rw [hct] at h2 h3 h4 h5
          exact ⟨h1, by rw [h2]; rfl, fun _ => h3 rfl, fun _ => h4 rfl,
            by rw [h5]; rfl, h6, by intro hc; simp at hc⟩
  | joinGraceful hj1 hj2 =>
      simp only [ctrlNext, hj1]
      rw [hj1] at h2 h5
      exact ⟨h1, by rw [h2]; rfl, fun _ => hj2, by intro hpc; simp [ctrlPastCreate] at hpc,
        by rw [h5]; rfl, h6, by intro hc; simp at hc⟩
  | joinTimeout ht hj => exact Bool.noConfusion ht

theorem reach_SysInv {s : Sys} (h : Reach false s) : SysInv s := by
  induction h with
  | init => exact SysInv_init
  | step _ hs ih => exact SysInv_step hs ih

/-- C1 (amended): in every execution in which the old render thread exits
before the join timeout elapses (the graceful step relation,
`timeoutAllowed = false`), no frame generated by effect A is dispatched to
the hardware sink after B's start signal; once the join times out instead,
the old loop can dispatch an A frame after B starts
(`start_effect_interleaving_counterexample`). -/
theorem no_interleaving_graceful (s : Sys) (h : Reach false s) :
    hasFrameAAfterStartB s.trace = false :=
  (reach_SysInv h).1

/-- Witness for `no_interleaving_graceful` at the initial state. -/
theorem no_interleaving_graceful_witness :
    Reach false initSys ∧ hasFrameAAfterStartB initSys.trace = false :=
  ⟨Reach.init, no_interleaving_graceful initSys Reach.init⟩
